import Mathlib

/-!
# Blog platform: request handlers over a document store

A shallow embedding of `src/server.js` and the schemas under `src/models/`.
The document store is a record of three collections; every route handler is a
function from the store (and the request) to the new store and the response.
Handlers run one at a time: a handler is a single transition.

Conventions of the embedding:

* a stored identifier is an `ObjectId` value (a natural number here); an
  identifier in a request is an `IdParam`, text that either casts to an ObjectId
  or does not (the model layer then raises a cast error, which the catch block
  of the handler turns into a 500 response);
* dates are milliseconds since the epoch, as natural numbers; the clock reading
  used for `Date.now` is passed to the handler;
* `page` and `limit` are the integers `parseInt` yields, taken non-negative;
* a request field whose absence a handler or a collaborator acts on is an
  `Option` (the passwords among them, on which `bcrypt` raises); usernames and
  emails are taken as given strings.
-/

namespace Blog

/-! ## Data model -/

abbrev ObjectId := Nat

/-- An identifier as a request carries it, in the path, the query string or
the body: text that casts to an ObjectId, or text that does not (such as `abc`),
for which casting raises a `CastError`. -/
inductive IdParam where
  | oid (id : ObjectId)
  | malformed
  deriving DecidableEq, Repr

/-- Modelled from the spec: the User schema (`models/user`), which the server
requires but which is not among the sources. A user has a username, an email,
the password hash and the registration timestamp. -/
structure User where
  _id : ObjectId
  username : String
  email : String
  password : String
  registrationDate : Nat
  deriving DecidableEq, Repr

/-- A stored blog post. The fields `title` .. `category` are the paths of
`blogPostSchema`. The schema declares no `likes` path; the collection itself is
schemaless, so a stored document carries a `likes` value only when it was
written outside the model, and `likes = none` stands for a document without the
field. -/
structure BlogPost where
  _id : ObjectId
  title : String
  content : String
  author : ObjectId
  creationDate : Nat
  tags : List String
  category : String
  likes : Option Nat
  deriving DecidableEq, Repr

/-- A stored comment: the paths of `commentSchema`, and the two timestamps that
the schema option `timestamps: true` adds. -/
structure Comment where
  _id : ObjectId
  text : String
  commenter : ObjectId
  blogPost : ObjectId
  likes : Nat
  creationDate : Nat
  createdAt : Nat
  updatedAt : Nat
  deriving DecidableEq, Repr

/-- The document store: the three collections, and the counter from which fresh
ObjectIds are drawn. -/
structure Store where
  users : List User
  posts : List BlogPost
  comments : List Comment
  nextId : ObjectId
  deriving DecidableEq, Repr

/-- The collaborators the handlers call: `bcrypt.hash(password, 10)`,
`bcrypt.compare(password, hash)`, and the validation that `user.save()` runs
for the User schema (not among the sources), given the username and email. -/
structure Env where
  hash : String → String
  compare : String → String → Bool
  userValid : String → String → Bool

/-! ## Populated views -/

/-- What `populate(path, 'username email')` puts in place of a user reference:
the identifier and the selected fields (`email` is absent when only `username`
is selected). -/
structure UserView where
  _id : ObjectId
  username : String
  email : Option String
  deriving DecidableEq, Repr

/-- A post whose `author` has been populated (`null` when no user has that
identifier). -/
structure PopulatedPost where
  doc : BlogPost
  author : Option UserView
  deriving DecidableEq, Repr

/-- A comment whose `commenter` has been populated. -/
structure PopulatedComment where
  doc : Comment
  commenter : Option UserView
  deriving DecidableEq, Repr

def findUserById (users : List User) (id : ObjectId) : Option User :=
  users.find? (fun u => u._id == id)

/-- `populate('author', 'username email')`. -/
def populateAuthor (users : List User) (p : BlogPost) : PopulatedPost :=
  { doc := p
    author := (findUserById users p.author).map
      (fun u => { _id := u._id, username := u.username, email := some u.email }) }

/-- `populate('commenter', 'username email')` when `withEmail`, and
`populate('commenter', 'username')` otherwise. -/
def populateCommenter (users : List User) (withEmail : Bool) (c : Comment) : PopulatedComment :=
  { doc := c
    commenter := (findUserById users c.commenter).map
      (fun u => { _id := u._id, username := u.username,
                  email := if withEmail then some u.email else none }) }

/-! ## Responses -/

/-- The public user view of the registration and login responses. -/
structure PublicUser where
  id : ObjectId
  username : String
  email : String
  registrationDate : Option Nat
  deriving DecidableEq, Repr

/-- The JSON body of a response. `serverError` is the body
`{ error: error.message }` of the catch blocks. `pages` is `none` when
`Math.ceil(total / limit)` is not a finite number (it is serialised as `null`).
The `likes` field of the like responses is `none` when the value read from the
document is `undefined`. -/
inductive Body where
  | error (msg : String)
  | serverError
  | registered (message : String) (user : PublicUser)
  | loggedIn (message : String) (user : PublicUser)
  | postMessage (message : String) (post : PopulatedPost)
  | postList (count total page : Nat) (pages : Option Nat) (posts : List PopulatedPost)
  | post (post : PopulatedPost)
  | message (message : String)
  | postLiked (message : String) (likes : Option Nat) (post : PopulatedPost)
  | commentMessage (message : String) (comment : PopulatedComment)
  | commentList (count total page : Nat) (pages : Option Nat) (comments : List PopulatedComment)
  | commentLiked (message : String) (likes : Option Nat) (comment : PopulatedComment)
  | info (message : String)
  deriving DecidableEq, Repr

structure Response where
  status : Nat
  body : Body
  deriving DecidableEq, Repr

/-! ## Sorting and pagination -/

/-- The sort specifications the handlers build: `{ creationDate: 1 }`,
`{ creationDate: -1 }` and `{ likes: -1 }`. -/
inductive SortOption where
  | creationAsc
  | creationDesc
  | likesDesc
  deriving DecidableEq, Repr

/-- The `switch (sort)` of both listing handlers; `sort` defaults to
`'newest'` when the query has none. -/
def sortOption (sort : Option String) : SortOption :=
  match sort.getD "newest" with
  | "oldest" => SortOption.creationAsc
  | "popular" => SortOption.likesDesc
  | _ => SortOption.creationDesc

/-- The value the store compares for a `likes` sort key: a missing field
sorts below every number. -/
def likesKey (l : Option Nat) : Nat :=
  match l with
  | none => 0
  | some n => n + 1

/-- Order of two posts under a sort specification: `postBefore o a b` holds
when `a` may precede `b`. -/
def postBefore (o : SortOption) (a b : BlogPost) : Prop :=
  match o with
  | SortOption.creationAsc => a.creationDate ≤ b.creationDate
  | SortOption.creationDesc => b.creationDate ≤ a.creationDate
  | SortOption.likesDesc => likesKey b.likes ≤ likesKey a.likes

instance (o : SortOption) : DecidableRel (postBefore o) := fun a b => by
  cases o <;> unfold postBefore <;> infer_instance

/-- Order of two comments under a sort specification. -/
def commentBefore (o : SortOption) (a b : Comment) : Prop :=
  match o with
  | SortOption.creationAsc => a.creationDate ≤ b.creationDate
  | SortOption.creationDesc => b.creationDate ≤ a.creationDate
  | SortOption.likesDesc => b.likes ≤ a.likes

instance (o : SortOption) : DecidableRel (commentBefore o) := fun a b => by
  cases o <;> unfold commentBefore <;> infer_instance

/-- The cursor `.sort(sortOption)` of the store: the documents in the order of
the sort specification, documents with equal keys in stored order. -/
def sortPosts (o : SortOption) (l : List BlogPost) : List BlogPost :=
  l.insertionSort (postBefore o)

def sortComments (o : SortOption) (l : List Comment) : List Comment :=
  l.insertionSort (commentBefore o)

/-- The cursor modifier `.limit(n)`: `0` means no limit. -/
def applyLimit {α : Type} (limit : Nat) (l : List α) : List α :=
  if limit = 0 then l else l.take limit

/-- The cursor `.sort(..).skip(skip).limit(limit)` for a non-negative `skip`. -/
def pageSlice {α : Type} (skip limit : Nat) (sorted : List α) : List α :=
  applyLimit limit (sorted.drop skip)

/-- The value of `Math.ceil(total / limit)`: not a finite number when `limit`
is `0`. -/
def pageCount (total limit : Nat) : Option Nat :=
  if limit = 0 then none else some ((total + limit - 1) / limit)

/-- JavaScript truthiness of an optional string: a missing value and the empty
string are falsy. -/
def truthy (s : Option String) : Bool :=
  match s with
  | none => false
  | some v => v != ""

/-! ## GET /api/posts -/

/-- The query string of `GET /api/posts`. -/
structure PostsQuery where
  tag : Option String
  category : Option String
  author : Option IdParam
  page : Option Nat
  limit : Option Nat
  sort : Option String
  deriving DecidableEq, Repr

/-- The filter document built from the query: `tags` matches a post whose tag
array contains the value; a falsy parameter adds no condition (`author` is
`none` when the parameter is missing or empty). -/
def postMatches (q : PostsQuery) (p : BlogPost) : Bool :=
  (if truthy q.tag then p.tags.contains (q.tag.getD "") else true) &&
  (if truthy q.category then p.category == q.category.getD "" else true) &&
  (match q.author with
   | some (IdParam.oid a) => p.author == a
   | _ => true)

/-- Handler of `GET /api/posts`. An `author` that does not cast makes
`countDocuments(filter)` raise, a negative `skip` is refused by the store; in
both cases the catch block answers 500. -/
def getPosts (s : Store) (q : PostsQuery) : Response :=
  let page := q.page.getD 1
  let limit := q.limit.getD 10
  let o := sortOption q.sort
  let skip : Int := ((page : Int) - 1) * (limit : Int)
  let total := (s.posts.filter (postMatches q)).length
  if q.author = some IdParam.malformed then
    { status := 500, body := Body.serverError }
  else if skip < 0 then
    { status := 500, body := Body.serverError }
  else
    let posts := (pageSlice skip.toNat limit
      (sortPosts o (s.posts.filter (postMatches q)))).map (populateAuthor s.users)
    { status := 200
      body := Body.postList posts.length total page (pageCount total limit) posts }

/-! ## Store queries -/

/-- `Model.findById(id)`: the first document with that identifier. -/
def findById (posts : List BlogPost) (id : ObjectId) : Option BlogPost :=
  posts.find? (fun p => p._id == id)

def findCommentById (comments : List Comment) (id : ObjectId) : Option Comment :=
  comments.find? (fun c => c._id == id)

/-- The write of `findByIdAndUpdate`: the first document satisfying `p` is
replaced by its image under `f`. -/
def updateFirst {α : Type} (p : α → Bool) (f : α → α) : List α → List α
  | [] => []
  | a :: l => if p a then f a :: l else a :: updateFirst p f l

/-- The paths that `blogPostSchema` declares. -/
def blogPostSchemaPaths : List String :=
  ["title", "content", "author", "creationDate", "tags", "category"]

/-- The paths that `commentSchema` declares. -/
def commentSchemaPaths : List String :=
  ["text", "commenter", "blogPost", "likes", "creationDate"]

/-- Casting of the update document `{ $inc: { path: n } }` against a schema
(strict mode, the default): an operator on a path the schema does not declare
is removed from the update. -/
def castInc (paths : List String) (path : String) (n : Nat) : Option Nat :=
  if paths.contains path then some n else none

/-- Reading `doc.path` on a hydrated document: the accessor exists only for a
path of the schema, otherwise the value is `undefined`. -/
def readPath (paths : List String) (path : String) (stored : Option Nat) : Option Nat :=
  if paths.contains path then stored else none

/-! ## User endpoints -/

/-- The JSON body of `POST /api/users/register`; `password` is `none` when the
body has no password or a value that `bcrypt.hash` does not take. -/
structure RegisterBody where
  username : String
  email : String
  password : Option String
  deriving DecidableEq, Repr

/-- Handler of `POST /api/users/register`. When no user is found,
`bcrypt.hash` is called; it raises on a missing password and the catch block
answers 500. -/
def postUsersRegister (env : Env) (now : Nat) (s : Store) (b : RegisterBody) :
    Store × Response :=
  match s.users.find? (fun u => u.email == b.email || u.username == b.username) with
  | some _ => (s, { status := 400, body := Body.error "User already exists" })
  | none =>
    match b.password with
    | none => (s, { status := 500, body := Body.serverError })
    | some password =>
      let hashedPassword := env.hash password
      let user : User :=
        { _id := s.nextId, username := b.username, email := b.email,
          password := hashedPassword, registrationDate := now }
      if env.userValid b.username b.email then
        ({ s with users := s.users ++ [user], nextId := s.nextId + 1 },
         { status := 201
           body := Body.registered "User registered successfully"
             { id := user._id, username := user.username, email := user.email,
               registrationDate := some user.registrationDate } })
      else
        (s, { status := 500, body := Body.serverError })

/-- The JSON body of `POST /api/users/login`; `password` is `none` when the
body has no password or a value that is not a string. -/
structure LoginBody where
  username : String
  password : Option String
  deriving DecidableEq, Repr

/-- Handler of `POST /api/users/login`. It writes nothing. Once a user is
found, `bcrypt.compare` is called; it raises when the password is missing or
not a string, and the catch block answers 500. -/
def postUsersLogin (env : Env) (s : Store) (b : LoginBody) : Response :=
  match s.users.find? (fun u => u.username == b.username) with
  | none => { status := 401, body := Body.error "Invalid credentials" }
  | some user =>
    match b.password with
    | none => { status := 500, body := Body.serverError }
    | some password =>
      let isPasswordValid := env.compare password user.password
      if !isPasswordValid then
        { status := 401, body := Body.error "Invalid credentials" }
      else
        { status := 200
          body := Body.loggedIn "Login successful"
            { id := user._id, username := user.username, email := user.email,
              registrationDate := none } }

/-! ## Blog post endpoints -/

structure CreatePostBody where
  title : Option String
  content : Option String
  authorId : Option IdParam
  tags : Option (List String)
  category : Option String
  deriving DecidableEq, Repr

/-- The `required: true` validator of a String path: the value must be present
and non-empty. -/
def requiredString (v : Option String) : Bool :=
  match v with
  | none => false
  | some x => x != ""

/-- Handler of `POST /api/posts`. `post.save()` validates `title`, `content`
and `author` as required, and `author` must cast to an ObjectId; `likes` is
not a path of the schema and is not stored. -/
def postPosts (now : Nat) (s : Store) (b : CreatePostBody) : Store × Response :=
  match b.authorId with
  | none => (s, { status := 500, body := Body.serverError })
  | some IdParam.malformed => (s, { status := 500, body := Body.serverError })
  | some (IdParam.oid authorId) =>
    if requiredString b.title && requiredString b.content then
      let post : BlogPost :=
        { _id := s.nextId
          title := b.title.getD ""
          content := b.content.getD ""
          author := authorId
          creationDate := now
          tags := b.tags.getD []
          category := if truthy b.category then b.category.getD "" else "General"
          likes := none }
      ({ s with posts := s.posts ++ [post], nextId := s.nextId + 1 },
       { status := 201
         body := Body.postMessage "Post created successfully" (populateAuthor s.users post) })
    else
      (s, { status := 500, body := Body.serverError })

/-- Handler of `GET /api/posts/:id`. -/
def getPostById (s : Store) (id : IdParam) : Response :=
  match id with
  | IdParam.malformed => { status := 500, body := Body.serverError }
  | IdParam.oid id =>
    match findById s.posts id with
    | none => { status := 404, body := Body.error "Post not found" }
    | some post => { status := 200, body := Body.post (populateAuthor s.users post) }

/-- The JSON body of `PUT /api/posts/:id`: the four fields the handler reads,
and two of the other fields a body may carry. -/
structure UpdatePostBody where
  title : Option String
  content : Option String
  tags : Option (List String)
  category : Option String
  author : Option IdParam
  likes : Option Nat
  deriving DecidableEq, Repr

/-- The update validators that `runValidators: true` switches on: a path that
the update sets is validated, a key whose value is `undefined` is not part of
the update. -/
def updateValid (b : UpdatePostBody) : Bool :=
  (match b.title with
   | some t => t != ""
   | none => true) &&
  (match b.content with
   | some c => c != ""
   | none => true)

/-- The update `{ title, content, tags, category }` applied to a post. -/
def applyUpdate (b : UpdatePostBody) (p : BlogPost) : BlogPost :=
  { p with
    title := b.title.getD p.title
    content := b.content.getD p.content
    tags := b.tags.getD p.tags
    category := b.category.getD p.category }

/-- Handler of `PUT /api/posts/:id`. An identifier that does not cast and a
body that fails the validators both make `findByIdAndUpdate` raise, before the
store is queried, and the catch block answers 500. -/
def putPost (s : Store) (id : IdParam) (b : UpdatePostBody) : Store × Response :=
  match id with
  | IdParam.malformed => (s, { status := 500, body := Body.serverError })
  | IdParam.oid id =>
    if updateValid b then
      match findById s.posts id with
      | none => (s, { status := 404, body := Body.error "Post not found" })
      | some old =>
        let post := applyUpdate b old
        ({ s with posts := updateFirst (fun p => p._id == id) (applyUpdate b) s.posts },
         { status := 200
           body := Body.postMessage "Post updated successfully" (populateAuthor s.users post) })
    else
      (s, { status := 500, body := Body.serverError })

/-- Handler of `DELETE /api/posts/:id`: `findByIdAndDelete`, then
`Comment.deleteMany({ blogPost: id })`. For an identifier that does not cast,
`findByIdAndDelete` raises and the catch block answers 500. -/
def deletePost (s : Store) (id : IdParam) : Store × Response :=
  match id with
  | IdParam.malformed => (s, { status := 500, body := Body.serverError })
  | IdParam.oid id =>
    match findById s.posts id with
    | none => (s, { status := 404, body := Body.error "Post not found" })
    | some _ =>
      ({ s with
         posts := s.posts.eraseP (fun p => p._id == id)
         comments := s.comments.filter (fun c => c.blogPost != id) },
       { status := 200, body := Body.message "Post and its comments deleted successfully" })

/-- The update `{ $inc: { likes: 1 } }` after casting against
`blogPostSchema`, applied to a post. -/
def incPostLikes (p : BlogPost) : BlogPost :=
  match castInc blogPostSchemaPaths "likes" 1 with
  | none => p
  | some n => { p with likes := some (p.likes.getD 0 + n) }

/-- Handler of `POST /api/posts/:id/like`. -/
def postPostLike (s : Store) (id : IdParam) : Store × Response :=
  match id with
  | IdParam.malformed => (s, { status := 500, body := Body.serverError })
  | IdParam.oid id =>
    match findById s.posts id with
    | none => (s, { status := 404, body := Body.error "Post not found" })
    | some old =>
      let post := incPostLikes old
      ({ s with posts := updateFirst (fun p => p._id == id) incPostLikes s.posts },
       { status := 200
         body := Body.postLiked "Post liked successfully"
           (readPath blogPostSchemaPaths "likes" post.likes) (populateAuthor s.users post) })

/-! ## Comment endpoints -/

/-- The characters that `String.prototype.trim` removes: white space and line
terminators. -/
def isJsWhitespace (c : Char) : Bool :=
  let n := c.toNat
  n == 0x09 || n == 0x0A || n == 0x0B || n == 0x0C || n == 0x0D || n == 0x20 ||
  n == 0xA0 || n == 0x1680 || (0x2000 ≤ n && n ≤ 0x200A) || n == 0x2028 ||
  n == 0x2029 || n == 0x202F || n == 0x205F || n == 0x3000 || n == 0xFEFF

/-- The setter of `trim: true`: `String.prototype.trim`. -/
def jsTrim (s : String) : String :=
  String.mk ((s.toList.dropWhile isJsWhitespace).reverse.dropWhile isJsWhitespace).reverse

/-- The `length` of a JavaScript string: the number of UTF-16 code units, two
for a character outside the basic plane. -/
def jsLength (s : String) : Nat :=
  (s.toList.map (fun c => if c.toNat < 0x10000 then 1 else 2)).sum

structure CreateCommentBody where
  text : Option String
  commenterId : Option IdParam
  blogPostId : Option IdParam
  deriving DecidableEq, Repr

/-- The validators of `commentSchema.text`, on the value after the `trim`
setter: `required` and `maxlength: 1000`. -/
def commentTextValid (text : Option String) : Bool :=
  match text with
  | none => false
  | some t => jsTrim t != "" && jsLength (jsTrim t) ≤ 1000

/-- Handler of `POST /api/comments`. For a `blogPostId` that does not cast,
`BlogPost.findById` raises and the catch block answers 500;
`findById(undefined)` finds nothing. `comment.save()` runs the validators of
`commentSchema`; a `commenterId` that is missing or does not cast fails
them. -/
def postComments (now : Nat) (s : Store) (b : CreateCommentBody) : Store × Response :=
  match b.blogPostId with
  | some IdParam.malformed => (s, { status := 500, body := Body.serverError })
  | none => (s, { status := 404, body := Body.error "Blog post not found" })
  | some (IdParam.oid blogPostId) =>
    match findById s.posts blogPostId with
    | none => (s, { status := 404, body := Body.error "Blog post not found" })
    | some _ =>
      match b.commenterId with
      | some (IdParam.oid commenterId) =>
        if commentTextValid b.text then
          let comment : Comment :=
            { _id := s.nextId
              text := jsTrim (b.text.getD "")
              commenter := commenterId
              blogPost := blogPostId
              likes := 0
              creationDate := now
              createdAt := now
              updatedAt := now }
          ({ s with comments := s.comments ++ [comment], nextId := s.nextId + 1 },
           { status := 201
             body := Body.commentMessage "Comment added successfully"
               (populateCommenter s.users false comment) })
        else
          (s, { status := 500, body := Body.serverError })
      | _ => (s, { status := 500, body := Body.serverError })

/-- The query string of `GET /api/posts/:postId/comments`. -/
structure CommentsQuery where
  page : Option Nat
  limit : Option Nat
  sort : Option String
  deriving DecidableEq, Repr

/-- Handler of `GET /api/posts/:postId/comments`. For a `postId` that does not
cast, `countDocuments` raises and the catch block answers 500. -/
def getPostComments (s : Store) (postId : IdParam) (q : CommentsQuery) : Response :=
  match postId with
  | IdParam.malformed => { status := 500, body := Body.serverError }
  | IdParam.oid postId =>
    let page := q.page.getD 1
    let limit := q.limit.getD 20
    let o := sortOption q.sort
    let skip : Int := ((page : Int) - 1) * (limit : Int)
    let total := (s.comments.filter (fun c => c.blogPost == postId)).length
    if skip < 0 then
      { status := 500, body := Body.serverError }
    else
      let comments := (pageSlice skip.toNat limit
        (sortComments o (s.comments.filter (fun c => c.blogPost == postId)))).map
          (populateCommenter s.users true)
      { status := 200
        body := Body.commentList comments.length total page (pageCount total limit) comments }

/-- Handler of `DELETE /api/comments/:id`. -/
def deleteComment (s : Store) (id : IdParam) : Store × Response :=
  match id with
  | IdParam.malformed => (s, { status := 500, body := Body.serverError })
  | IdParam.oid id =>
    match findCommentById s.comments id with
    | none => (s, { status := 404, body := Body.error "Comment not found" })
    | some _ =>
      ({ s with comments := s.comments.eraseP (fun c => c._id == id) },
       { status := 200, body := Body.message "Comment deleted successfully" })

/-- The update `{ $inc: { likes: 1 } }` after casting against `commentSchema`,
applied to a comment; `timestamps: true` makes the update set `updatedAt`. -/
def incCommentLikes (now : Nat) (c : Comment) : Comment :=
  match castInc commentSchemaPaths "likes" 1 with
  | none => { c with updatedAt := now }
  | some n => { c with likes := c.likes + n, updatedAt := now }

/-- Handler of `POST /api/comments/:id/like`. -/
def postCommentLike (now : Nat) (s : Store) (id : IdParam) : Store × Response :=
  match id with
  | IdParam.malformed => (s, { status := 500, body := Body.serverError })
  | IdParam.oid id =>
    match findCommentById s.comments id with
    | none => (s, { status := 404, body := Body.error "Comment not found" })
    | some old =>
      let comment := incCommentLikes now old
      ({ s with
         comments := updateFirst (fun c => c._id == id) (incCommentLikes now) s.comments },
       { status := 200
         body := Body.commentLiked "Comment liked successfully"
           (readPath commentSchemaPaths "likes" (some comment.likes))
           (populateCommenter s.users false comment) })

/-! ## The server -/

/-- A request to one of the routes of the server. -/
inductive Request where
  | register (b : RegisterBody)
  | login (b : LoginBody)
  | createPost (b : CreatePostBody)
  | listPosts (q : PostsQuery)
  | getPost (id : IdParam)
  | updatePost (id : IdParam) (b : UpdatePostBody)
  | deletePost (id : IdParam)
  | likePost (id : IdParam)
  | createComment (b : CreateCommentBody)
  | listComments (postId : IdParam) (q : CommentsQuery)
  | deleteComment (id : IdParam)
  | likeComment (id : IdParam)
  | root
  deriving DecidableEq, Repr

/-- One request handled to completion at clock reading `now`. -/
def handle (env : Env) (now : Nat) (s : Store) (r : Request) : Store × Response :=
  match r with
  | Request.register b => postUsersRegister env now s b
  | Request.login b => (s, postUsersLogin env s b)
  | Request.createPost b => postPosts now s b
  | Request.listPosts q => (s, getPosts s q)
  | Request.getPost id => (s, getPostById s id)
  | Request.updatePost id b => putPost s id b
  | Request.deletePost id => deletePost s id
  | Request.likePost id => postPostLike s id
  | Request.createComment b => postComments now s b
  | Request.listComments postId q => (s, getPostComments s postId q)
  | Request.deleteComment id => deleteComment s id
  | Request.likeComment id => postCommentLike now s id
  | Request.root => (s, { status := 200, body := Body.info "Blog Platform API is running!" })

/-- A sequence of requests, each with its clock reading, handled in order. -/
def run (env : Env) (s : Store) : List (Nat × Request) → Store
  | [] => s
  | (now, r) :: rest => run env (handle env now s r).1 rest

/-! ## Reading a response -/

/-- The `posts` array of a response of `GET /api/posts` (empty when the
response carries none). -/
def returnedPosts (r : Response) : List PopulatedPost :=
  match r.body with
  | Body.postList _ _ _ _ posts => posts
  | _ => []

/-- The `comments` array of a response of `GET /api/posts/:postId/comments`
(empty when the response carries none). -/
def returnedComments (r : Response) : List PopulatedComment :=
  match r.body with
  | Body.commentList _ _ _ _ comments => comments
  | _ => []

/-- The `total` field of a listing response. -/
def returnedTotal (r : Response) : Option Nat :=
  match r.body with
  | Body.postList _ total _ _ _ => some total
  | Body.commentList _ total _ _ _ => some total
  | _ => none

/-- The response of both failure branches of the login handler. -/
def invalidCredentials : Response :=
  { status := 401, body := Body.error "Invalid credentials" }

/-- The stored comment that a valid creation request appends. -/
def newComment (now : Nat) (s : Store) (text : String) (commenter blogPost : ObjectId) :
    Comment :=
  { _id := s.nextId, text := jsTrim text, commenter := commenter, blogPost := blogPost,
    likes := 0, creationDate := now, createdAt := now, updatedAt := now }

/-! ## Well-formed stores -/

/-- Every stored post has its own identifier (the store keeps `_id` unique). -/
def postIdsUnique (s : Store) : Prop :=
  (s.posts.map (fun p => p._id)).Nodup

/-- No two stored users share a username, and no two share an email. -/
def usersUnique (s : Store) : Prop :=
  (s.users.map (fun u => u.username)).Nodup ∧ (s.users.map (fun u => u.email)).Nodup

/-- Every stored comment has its own identifier. -/
def commentIdsUnique (s : Store) : Prop :=
  (s.comments.map (fun c => c._id)).Nodup

/-- Every stored comment's `blogPost` is the identifier of a stored post. -/
def commentsResolve (s : Store) : Prop :=
  ∀ c ∈ s.comments, ∃ p ∈ s.posts, p._id = c.blogPost

/-! ## Example data -/

/-- Collaborators for the examples: the hash of a password is the password
behind a marker, and every user passes validation. -/
def exampleEnv : Env :=
  { hash := fun p => "#" ++ p
    compare := fun p h => h == "#" ++ p
    userValid := fun _ _ => true }

/-- A store with no document. -/
def emptyStore : Store :=
  { users := [], posts := [], comments := [], nextId := 0 }

def examplePost (id date : Nat) (likes : Option Nat) : BlogPost :=
  { _id := id, title := "title", content := "content", author := 1, creationDate := date,
    tags := [], category := "General", likes := likes }

def exampleComment (id post date likes : Nat) : Comment :=
  { _id := id, text := "text", commenter := 1, blogPost := post, likes := likes,
    creationDate := date, createdAt := date, updatedAt := date }

/-- A store with five posts and no user or comment. -/
def fivePosts : Store :=
  { users := []
    posts := [examplePost 1 10 none, examplePost 2 50 none, examplePost 3 30 none,
              examplePost 4 20 none, examplePost 5 40 none]
    comments := []
    nextId := 6 }

/-- The query `?page=2&limit=2`. -/
def secondPageOfTwo : PostsQuery :=
  { tag := none, category := none, author := none, page := some 2, limit := some 2, sort := none }

def taggedPost (id date : Nat) (tags : List String) (category : String) (author : ObjectId) :
    BlogPost :=
  { _id := id, title := "title", content := "content", author := author, creationDate := date,
    tags := tags, category := category, likes := none }

/-- A store with the user `ann` (identifier 1) and eight posts; five of them
(11, 13, 14, 16 and 18) have the tag `js`, the category `Tech` and the author
1. -/
def taggedPosts : Store :=
  { users := [{ _id := 1, username := "ann", email := "ann@example.com", password := "h",
                registrationDate := 0 }]
    posts := [taggedPost 11 10 ["js", "web"] "Tech" 1, taggedPost 12 20 ["web"] "Tech" 1,
              taggedPost 13 50 ["js"] "Tech" 1, taggedPost 14 30 ["db", "js"] "Tech" 1,
              taggedPost 15 60 ["js"] "General" 1, taggedPost 16 20 ["js"] "Tech" 1,
              taggedPost 17 70 ["js"] "Tech" 2, taggedPost 18 40 ["js"] "Tech" 1]
    comments := []
    nextId := 19 }

/-- The query `?tag=js&category=Tech&author=<id 1>&page=2&limit=2`. -/
def filteredSecondPage : PostsQuery :=
  { tag := some "js", category := some "Tech", author := some (IdParam.oid 1),
    page := some 2, limit := some 2, sort := none }

/-- The query `?author=abc&page=1&limit=10`. -/
def malformedAuthorQuery : PostsQuery :=
  { tag := none, category := none, author := some IdParam.malformed, page := some 1,
    limit := some 10, sort := none }

/-- A store with posts carrying likes written outside the model. -/
def likedPosts : Store :=
  { users := []
    posts := [examplePost 1 10 (some 15), examplePost 2 50 none, examplePost 3 30 (some 42)]
    comments := []
    nextId := 4 }

/-- The query `?sort=popular`. -/
def popularQuery : PostsQuery :=
  { tag := none, category := none, author := none, page := none, limit := none,
    sort := some "popular" }

/-- A store with two posts, the first with two comments, the second with one. -/
def commentedPosts : Store :=
  { users := [{ _id := 1, username := "ann", email := "ann@example.com", password := "h",
                registrationDate := 0 }]
    posts := [examplePost 2 10 none, examplePost 3 20 none]
    comments := [exampleComment 4 2 11 0, exampleComment 5 3 21 2, exampleComment 6 2 12 1]
    nextId := 7 }

/-- A request body for a comment on post 99, which the example store lacks. -/
def commentOnMissingPost : CreateCommentBody :=
  { text := some "hello", commenterId := some (IdParam.oid 1),
    blogPostId := some (IdParam.oid 99) }

/-- A request body for a comment whose `blogPostId` is `abc`. -/
def commentOnMalformedPost : CreateCommentBody :=
  { text := some "hello", commenterId := some (IdParam.oid 1),
    blogPostId := some IdParam.malformed }

def annRegisters : RegisterBody :=
  { username := "ann", email := "ann@example.com", password := some "secret" }

/-- The example store after `ann` has registered with password `secret`. -/
def annRegistered : Store :=
  (postUsersRegister exampleEnv 0 emptyStore annRegisters).1

/-- A login body for the registered `ann` that carries no password. -/
def annWithoutPassword : LoginBody :=
  { username := "ann", password := none }

/-- A login body for the unknown `bob` that carries no password. -/
def bobWithoutPassword : LoginBody :=
  { username := "bob", password := none }

/-- A request body for a post by user 0, the user `ann` of `annRegistered`. -/
def firstPost : CreatePostBody :=
  { title := some "Hello", content := some "First post", authorId := some (IdParam.oid 0),
    tags := none,
    category := none }

/-- The store after `ann` has created her first post, which gets identifier 1. -/
def annPosted : Store :=
  (postPosts 5 annRegistered firstPost).1

/-- A text of 1001 characters: 1000 letters and a trailing space. -/
def paddedText : String :=
  String.mk (List.replicate 1000 'a' ++ [' '])

/-- A comment on post 2 whose text is one space. -/
def spaceComment : CreateCommentBody :=
  { text := some " ", commenterId := some (IdParam.oid 1), blogPostId := some (IdParam.oid 2) }

/-- A comment on post 2 whose text has 1001 characters, the last a space. -/
def paddedComment : CreateCommentBody :=
  { text := some paddedText, commenterId := some (IdParam.oid 1),
    blogPostId := some (IdParam.oid 2) }

/-- A comment on post 2 whose text has white space on both sides. -/
def niceComment : CreateCommentBody :=
  { text := some "  nice  ", commenterId := some (IdParam.oid 1),
    blogPostId := some (IdParam.oid 2) }

/-- An update body with an empty title. -/
def emptyTitleUpdate : UpdatePostBody :=
  { title := some "", content := some "new content", tags := some ["a"],
    category := some "News", author := none, likes := none }

/-- An update body that also carries an author and a likes value. -/
def fullUpdate : UpdatePostBody :=
  { title := some "new title", content := some "new content", tags := some ["a"],
    category := some "News", author := some (IdParam.oid 9), likes := some 100 }

/-- A registration with the username of `ann` and another email. -/
def secondAnn : RegisterBody :=
  { username := "ann", email := "second@example.com", password := some "x" }

/-- A registration with the email of `ann` and another username. -/
def bobWithEmailOfAnn : RegisterBody :=
  { username := "bob", email := "ann@example.com", password := some "y" }

def bobRegisters : RegisterBody :=
  { username := "bob", email := "bob@example.com", password := some "z" }

/-- Registrations of `ann`, of a second `ann` with another email, of `bob` with
the email of `ann`, and of `bob` with his own email, with a post, a like and a
deletion in between. -/
def registrationTrace : List (Nat × Request) :=
  [(0, Request.register annRegisters),
   (1, Request.register secondAnn),
   (2, Request.createPost firstPost),
   (3, Request.register bobWithEmailOfAnn),
   (4, Request.likePost (IdParam.oid 1)),
   (5, Request.register bobRegisters),
   (6, Request.deletePost (IdParam.oid 1))]

/-- A comment on post 3. -/
def firstComment : CreateCommentBody :=
  { text := some "first", commenterId := some (IdParam.oid 1),
    blogPostId := some (IdParam.oid 3) }

/-- A trace over the example store: a comment on post 3, the deletion of post
2 (with its two comments), a comment on the deleted post, an update and a like
of post 3, a new post, and the deletion of comment 5. -/
def commentTrace : List (Nat × Request) :=
  [(10, Request.createComment firstComment),
   (11, Request.deletePost (IdParam.oid 2)),
   (12, Request.createComment niceComment),
   (13, Request.updatePost (IdParam.oid 3) fullUpdate),
   (14, Request.likePost (IdParam.oid 3)),
   (15, Request.createPost firstPost),
   (16, Request.likeComment (IdParam.oid 5)),
   (17, Request.deleteComment (IdParam.oid 5))]

/-- Comment 5 of the example store after one like at clock reading 20. -/
def likedComment : Comment :=
  { _id := 5, text := "text", commenter := 1, blogPost := 3, likes := 3,
    creationDate := 21, createdAt := 21, updatedAt := 20 }

/-! ## Properties -/

/-! ### Ordering and pagination -/

instance postBefore_total (o : SortOption) : IsTotal BlogPost (postBefore o) :=
  ⟨fun a b => by cases o <;> simp only [postBefore] <;> omega⟩

instance postBefore_trans (o : SortOption) : IsTrans BlogPost (postBefore o) :=
  ⟨fun a b c => by cases o <;> simp only [postBefore] <;> omega⟩

theorem pageCount_eq_ceil (total limit : Nat) (hl : 1 ≤ limit) :
    (total + limit - 1) / limit = ⌈(total : ℚ) / (limit : ℚ)⌉₊ := by
  have hlq : (0 : ℚ) < (limit : ℚ) := by exact_mod_cast hl
  apply le_antisymm
  · have hc : (total : ℚ) / (limit : ℚ) ≤ (⌈(total : ℚ) / (limit : ℚ)⌉₊ : ℚ) := Nat.le_ceil _
    rw [div_le_iff₀ hlq] at hc
    have hc' : total ≤ ⌈(total : ℚ) / (limit : ℚ)⌉₊ * limit := by exact_mod_cast hc
    have : (total + limit - 1) / limit < ⌈(total : ℚ) / (limit : ℚ)⌉₊ + 1 := by
      rw [Nat.div_lt_iff_lt_mul (by omega)]
      rw [Nat.add_mul]
      omega
    omega
  · rw [Nat.ceil_le, div_le_iff₀ hlq]
    have h1 : total + limit - 1 < ((total + limit - 1) / limit + 1) * limit := by
      have := Nat.lt_div_mul_add (a := total + limit - 1) (b := limit) (by omega)
      rw [Nat.add_mul]; omega
    have h2 : total ≤ (total + limit - 1) / limit * limit := by
      rw [Nat.add_mul] at h1; omega
    exact_mod_cast h2

theorem skip_toNat (page limit : Nat) (hp : 1 ≤ page) :
    (((page : Int) - 1) * (limit : Int)).toNat = (page - 1) * limit ∧
    ¬ (((page : Int) - 1) * (limit : Int) < 0) := by
  obtain ⟨k, rfl⟩ : ∃ k, page = k + 1 := ⟨page - 1, by omega⟩
  have : ((((k + 1 : Nat) : Int)) - 1) * (limit : Int) = ((k * limit : Nat) : Int) := by
    push_cast; ring
  rw [this]
  exact ⟨Int.toNat_ofNat _, not_lt.mpr (Int.ofNat_nonneg _)⟩

theorem getElem?_drop_take {α : Type} (skip limit i : Nat) (l : List α) (hi : i < limit) :
    ((l.drop skip).take limit)[i]? = l[skip + i]? := by
  rw [List.getElem?_take_of_lt hi, List.getElem?_drop]

theorem exists_getElem?_some {α : Type} (l : List α) (i : Nat) (h : i < l.length) :
    ∃ a, l[i]? = some a ∧ some a = l[i]? := by
  cases h' : l[i]? with
  | none => rw [List.getElem?_eq_none_iff] at h'; omega
  | some a => exact ⟨a, rfl, rfl⟩

theorem postMatches_iff (q : PostsQuery) (p : BlogPost) :
    postMatches q p = true ↔
      (∀ t, q.tag = some t → t ≠ "" → t ∈ p.tags) ∧
      (∀ c, q.category = some c → c ≠ "" → p.category = c) ∧
      (∀ a, q.author = some (IdParam.oid a) → p.author = a) := by
  have htag : (if truthy q.tag then p.tags.contains (q.tag.getD "") else true) = true ↔
      ∀ t, q.tag = some t → t ≠ "" → t ∈ p.tags := by
    cases ht : q.tag with
    | none => simp [truthy]
    | some t =>
      by_cases hte : t = ""
      · simp [truthy, hte]
      · simp [truthy, hte]
  have hcat : (if truthy q.category then p.category == q.category.getD "" else true) = true ↔
      ∀ c, q.category = some c → c ≠ "" → p.category = c := by
    cases hc : q.category with
    | none => simp [truthy]
    | some c =>
      by_cases hce : c = ""
      · simp [truthy, hce]
      · simp [truthy, hce]
  have hauth : (match q.author with
      | some (IdParam.oid a) => p.author == a
      | _ => true) = true ↔ ∀ a, q.author = some (IdParam.oid a) → p.author = a := by
    cases ha : q.author with
    | none => simp
    | some v =>
      cases v with
      | malformed => simp
      | oid a => simp
  unfold postMatches
  rw [Bool.and_eq_true, Bool.and_eq_true, htag, hcat, hauth, and_assoc]

/-- C1 (counterexample): with five stored posts, the request
`?author=abc&page=1&limit=10`, whose author filter does not cast to an
identifier, is answered 500 and returns no page and no total. -/
theorem getPosts_malformed_author_counterexample :
    fivePosts.posts.length = 5 ∧
    malformedAuthorQuery.page = some 1 ∧ malformedAuthorQuery.limit = some 10 ∧
    getPosts fivePosts malformedAuthorQuery = { status := 500, body := Body.serverError } ∧
    returnedPosts (getPosts fivePosts malformedAuthorQuery) = [] ∧
    returnedTotal (getPosts fivePosts malformedAuthorQuery) = none := by
  decide

/-- C1 (amended): a post matches the filter exactly when it has the tag of the
query (if one is given and not empty), has the category of the query (likewise)
and has the author of the query (if one is given). For a page `page ≥ 1` and a
limit `limit ≥ 1` (given in the query or by default) and an author filter that
is absent or casts to an identifier, `GET /api/posts` answers 200 with exactly
the items at the 0-based positions `(page-1)*limit` up to `page*limit`
(excluded) of the matching posts in the active sort order: the ordered list is
a permutation of the stored posts that match the filter and is sorted by the
sort specification, the page has `min limit (total - (page-1)*limit)` items,
`total` is the number of matching posts and `pages` is the ceiling of
`total / limit`; each returned item is the stored post with its author
resolved to the user of that identifier. With 5 matching posts, page 2 and
limit 2, the page holds the items at positions 2 and 3 and `pages = 3`. An
author filter that does not cast is answered 500. -/
theorem getPosts_page_slice (s : Store) (q : PostsQuery) (page limit : Nat)
    (hpage : q.page.getD 1 = page) (hlimit : q.limit.getD 10 = limit)
    (hp : 1 ≤ page) (hl : 1 ≤ limit) :
    let matching := s.posts.filter (postMatches q)
    let ordered := sortPosts (sortOption q.sort) matching
    let slice := (ordered.drop ((page - 1) * limit)).take limit
    (∀ p, postMatches q p = true ↔
      (∀ t, q.tag = some t → t ≠ "" → t ∈ p.tags) ∧
      (∀ c, q.category = some c → c ≠ "" → p.category = c) ∧
      (∀ a, q.author = some (IdParam.oid a) → p.author = a)) ∧
    (∀ p, p ∈ matching ↔ p ∈ s.posts ∧
      (∀ t, q.tag = some t → t ≠ "" → t ∈ p.tags) ∧
      (∀ c, q.category = some c → c ≠ "" → p.category = c) ∧
      (∀ a, q.author = some (IdParam.oid a) → p.author = a)) ∧
    matching.Sublist s.posts ∧
    ordered.Perm matching ∧ ordered.Sorted (postBefore (sortOption q.sort)) ∧
    (q.author ≠ some IdParam.malformed →
      getPosts s q =
        { status := 200
          body := Body.postList slice.length matching.length page
            (some ⌈(matching.length : ℚ) / (limit : ℚ)⌉₊)
            (slice.map (populateAuthor s.users)) } ∧
      (returnedPosts (getPosts s q)).map (fun item => item.doc) = slice ∧
      (∀ item ∈ returnedPosts (getPosts s q),
        item.author = (s.users.find? (fun u => u._id == item.doc.author)).map
          (fun u => { _id := u._id, username := u.username, email := some u.email }))) ∧
    (q.author = some IdParam.malformed →
      getPosts s q = { status := 500, body := Body.serverError }) ∧
    slice.length = min limit (matching.length - (page - 1) * limit) ∧
    (∀ i, i < limit → slice[i]? = ordered[(page - 1) * limit + i]?) ∧
    (matching.length = 5 → page = 2 → limit = 2 →
      ⌈(matching.length : ℚ) / (limit : ℚ)⌉₊ = 3 ∧
      slice.map some = [ordered[2]?, ordered[3]?] ∧ slice.length = 2) := by
  intro matching ordered slice
  have hperm : ordered.Perm matching := List.perm_insertionSort _ _
  have hlen : ordered.length = matching.length := hperm.length_eq
  refine ⟨postMatches_iff q, ?_, List.filter_sublist _, hperm, List.sorted_insertionSort _ _,
    ?_, ?_, ?_, ?_, ?_⟩
  · intro p
    simp only [matching, List.mem_filter, postMatches_iff]
  · intro hauthor
    obtain ⟨h1, h2⟩ := skip_toNat page limit hp
    have hresp : getPosts s q =
        { status := 200
          body := Body.postList slice.length matching.length page
            (some ⌈(matching.length : ℚ) / (limit : ℚ)⌉₊)
            (slice.map (populateAuthor s.users)) } := by
      simp only [getPosts, hpage, hlimit, if_neg hauthor, if_neg h2, h1, pageSlice, applyLimit,
        if_neg (show ¬ limit = 0 by omega), pageCount, List.length_map,
        pageCount_eq_ceil _ limit hl]
    refine ⟨hresp, ?_, ?_⟩
    · rw [hresp]
      simp only [returnedPosts, List.map_map]
      exact List.map_id _
    · intro item hitem
      rw [hresp] at hitem
      simp only [returnedPosts, List.mem_map] at hitem
      obtain ⟨p, _, rfl⟩ := hitem
      rfl
  · intro hauthor
    simp only [getPosts, if_pos hauthor]
  · simp only [slice, List.length_take, List.length_drop, hlen]
  · intro i hi
    exact getElem?_drop_take _ _ _ _ hi
  · intro h5 h2 hl2
    subst h2 hl2
    have ho : ordered.length = 5 := by rw [hlen, h5]
    refine ⟨?_, ?_, ?_⟩
    · rw [← pageCount_eq_ceil _ 2 (by omega), h5]
    · apply List.ext_getElem?
      intro i
      rcases i with _ | _ | i
      · simpa [slice] using exists_getElem?_some ordered 2 (by omega)
      · simpa [slice] using exists_getElem?_some ordered 3 (by omega)
      · simp [slice]
    · simp only [slice, List.length_take, List.length_drop, ho]
      decide

/-- Witness of C1 (amended): of the eight example posts, five have the tag
`js`, the category `Tech` and the author 1; the second page of two under that
filter holds the third and fourth of them by creation date descending, posts 14
and 16 with their author `ann` resolved, with `total = 5` and 3 pages. -/
theorem getPosts_page_slice_witness :
    (1 ≤ 2 ∧ 1 ≤ 2) ∧ filteredSecondPage.author ≠ some IdParam.malformed ∧
    (taggedPosts.posts.filter (postMatches filteredSecondPage)).map (fun p => p._id) =
      [11, 13, 14, 16, 18] ∧
    getPosts taggedPosts filteredSecondPage =
      { status := 200
        body := Body.postList 2 5 2 (some 3)
          [{ doc := taggedPost 14 30 ["db", "js"] "Tech" 1
             author := some { _id := 1, username := "ann", email := some "ann@example.com" } },
           { doc := taggedPost 16 20 ["js"] "Tech" 1
             author := some { _id := 1, username := "ann",
                              email := some "ann@example.com" } }] } := by
  have h := getPosts_page_slice taggedPosts filteredSecondPage 2 2 rfl rfl (by decide)
    (by decide)
  have hauthor : filteredSecondPage.author ≠ some IdParam.malformed := by decide
  refine ⟨⟨by decide, by decide⟩, hauthor, by decide, ?_⟩
  rw [(h.2.2.2.2.2.1 hauthor).1, (h.2.2.2.2.2.2.2.2.2 (by decide) rfl rfl).1]
  decide

theorem sortOption_default (sort : Option String)
    (h1 : sort ≠ some "popular") (h2 : sort ≠ some "oldest") :
    sortOption sort = SortOption.creationDesc := by
  unfold sortOption
  split
  · rename_i h
    cases sort with
    | none => simp at h
    | some v => simp at h; subst h; exact absurd rfl h2
  · rename_i h
    cases sort with
    | none => simp at h
    | some v => simp at h; subst h; exact absurd rfl h1
  · rfl

theorem pairwise_pageSlice {α : Type} (r : α → α → Prop) (skip limit : Nat) (l : List α)
    (h : l.Pairwise r) : (pageSlice skip limit l).Pairwise r := by
  unfold pageSlice applyLimit
  split
  · exact h.sublist (List.drop_sublist _ _)
  · exact h.sublist ((List.take_sublist _ _).trans (List.drop_sublist _ _))

theorem returnedPosts_getPosts_pairwise (s : Store) (q : PostsQuery) :
    (returnedPosts (getPosts s q)).Pairwise
      (fun a b => postBefore (sortOption q.sort) a.doc b.doc) := by
  unfold getPosts
  simp only []
  split
  · simp [returnedPosts]
  · split
    · simp [returnedPosts]
    · simp only [returnedPosts]
      rw [List.pairwise_map]
      apply pairwise_pageSlice
      exact List.sorted_insertionSort (postBefore (sortOption q.sort)) _

/-- C2: whatever the store, the filter, the page and the limit, the posts that
`GET /api/posts` returns are ordered by the sort mode: with `sort=popular` the
likes never increase from an item to any later item (a post without a `likes`
value counting below every number), with `sort=oldest` the creation dates never
decrease, and with any other value of `sort` (`newest`, none, unrecognised)
the creation dates never increase. -/
theorem getPosts_sort_order (s : Store) (q : PostsQuery) :
    (q.sort = some "popular" →
      (returnedPosts (getPosts s q)).Pairwise
        (fun a b => likesKey b.doc.likes ≤ likesKey a.doc.likes)) ∧
    (q.sort = some "oldest" →
      (returnedPosts (getPosts s q)).Pairwise
        (fun a b => a.doc.creationDate ≤ b.doc.creationDate)) ∧
    (q.sort ≠ some "popular" → q.sort ≠ some "oldest" →
      (returnedPosts (getPosts s q)).Pairwise
        (fun a b => b.doc.creationDate ≤ a.doc.creationDate)) := by
  have h := returnedPosts_getPosts_pairwise s q
  refine ⟨fun hs => ?_, fun hs => ?_, fun h1 h2 => ?_⟩
  · rw [hs] at h; exact h
  · rw [hs] at h; exact h
  · rw [sortOption_default _ h1 h2] at h; exact h

/-- Witness of C2: on posts with likes 15, none and 42, `sort=popular` returns
them by likes 42, 15, none. -/
theorem getPosts_sort_order_witness :
    popularQuery.sort = some "popular" ∧
    (returnedPosts (getPosts likedPosts popularQuery)).map (fun p => p.doc.likes) =
      [some 42, some 15, none] ∧
    (returnedPosts (getPosts likedPosts popularQuery)).Pairwise
      (fun a b => likesKey b.doc.likes ≤ likesKey a.doc.likes) :=
  ⟨rfl, by decide, (getPosts_sort_order likedPosts popularQuery).1 rfl⟩

/-! ### Deleting a post -/

theorem eraseP_eq_filter_of_nodup (id : ObjectId) (l : List BlogPost)
    (h : (l.map (fun p => p._id)).Nodup) :
    l.eraseP (fun p => p._id == id) = l.filter (fun p => p._id != id) := by
  induction l with
  | nil => rfl
  | cons a l ih =>
    rw [List.map_cons, List.nodup_cons] at h
    by_cases ha : a._id = id
    · have hf : l.filter (fun p => p._id != id) = l := by
        rw [List.filter_eq_self]
        intro p hp
        have : p._id ≠ id := fun hpid =>
          h.1 (List.mem_map.mpr ⟨p, hp, by rw [hpid, ha]⟩)
        simpa using this
      simp [List.eraseP_cons, List.filter_cons, ha, hf]
    · simp [List.eraseP_cons, List.filter_cons, ha, ih h.2]

theorem findById_eq_none_iff (posts : List BlogPost) (id : ObjectId) :
    findById posts id = none ↔ ∀ p ∈ posts, p._id ≠ id := by
  simp [findById, List.find?_eq_none]

theorem findById_isSome_of_mem (posts : List BlogPost) (id : ObjectId)
    (h : ∃ p ∈ posts, p._id = id) : ∃ p, findById posts id = some p := by
  cases hf : findById posts id with
  | some p => exact ⟨p, rfl⟩
  | none =>
    obtain ⟨p, hp, hid⟩ := h
    exact absurd hid ((findById_eq_none_iff posts id).mp hf p hp)

theorem findById_isSome_of_mem_iff (posts : List BlogPost) (id : ObjectId) :
    (∃ p, findById posts id = some p) ↔ ∃ p ∈ posts, p._id = id := by
  constructor
  · rintro ⟨p, hp⟩
    refine ⟨p, List.mem_of_find?_eq_some hp, ?_⟩
    simpa using List.find?_some hp
  · exact findById_isSome_of_mem posts id

theorem getPostComments_of_no_comment (s : Store) (postId : ObjectId) (q : CommentsQuery)
    (h : ∀ c ∈ s.comments, c.blogPost ≠ postId) :
    returnedComments (getPostComments s (IdParam.oid postId) q) = [] ∧
    (1 ≤ q.page.getD 1 →
      getPostComments s (IdParam.oid postId) q =
        { status := 200
          body := Body.commentList 0 0 (q.page.getD 1) (pageCount 0 (q.limit.getD 20)) [] }) := by
  have hf : s.comments.filter (fun c => c.blogPost == postId) = [] := by
    rw [List.filter_eq_nil_iff]
    intro c hc
    simpa using h c hc
  constructor
  · unfold getPostComments
    simp only [hf]
    split
    · rfl
    · simp [returnedComments, sortComments, pageSlice, applyLimit]
  · intro hp
    obtain ⟨h1, h2⟩ := skip_toNat (q.page.getD 1) (q.limit.getD 20) hp
    simp [getPostComments, hf, if_neg h2, sortComments, pageSlice, applyLimit]

/-- C3 (counterexample): `DELETE /api/posts/abc`, whose identifier does not
cast and so matches no stored post, is answered 500, not 404 (the store is
unchanged). -/
theorem deletePost_malformed_counterexample :
    deletePost commentedPosts IdParam.malformed =
      (commentedPosts, { status := 500, body := Body.serverError }) ∧
    (deletePost commentedPosts IdParam.malformed).2.status ≠ 404 := by
  decide

/-- C3 (amended): in a store whose posts have distinct identifiers,
`DELETE /api/posts/:id` for the identifier of an existing post answers 200 and
leaves a store without that post and without any comment whose `blogPost` is
the identifier: the posts are the former posts other than it, the comments are
the former comments of the other posts, the users are untouched, and a
following listing of its comments returns no comment (with `total = 0`, status
200, for every page `≥ 1`). For an identifier that casts and matches no post
the answer is 404, for an identifier that does not cast the answer is 500, and
in both cases the store is the same. -/
theorem deletePost_cascade (s : Store) (id : ObjectId) (hu : postIdsUnique s) :
    ((∃ p ∈ s.posts, p._id = id) →
      (deletePost s (IdParam.oid id)).2 =
        { status := 200, body := Body.message "Post and its comments deleted successfully" } ∧
      (∀ p ∈ (deletePost s (IdParam.oid id)).1.posts, p._id ≠ id) ∧
      findById (deletePost s (IdParam.oid id)).1.posts id = none ∧
      (∀ c ∈ (deletePost s (IdParam.oid id)).1.comments, c.blogPost ≠ id) ∧
      (∀ q,
        returnedComments
          (getPostComments (deletePost s (IdParam.oid id)).1 (IdParam.oid id) q) = [] ∧
        (1 ≤ q.page.getD 1 →
          (getPostComments (deletePost s (IdParam.oid id)).1 (IdParam.oid id) q).status = 200 ∧
          returnedTotal
            (getPostComments (deletePost s (IdParam.oid id)).1 (IdParam.oid id) q) = some 0)) ∧
      (deletePost s (IdParam.oid id)).1.posts = s.posts.filter (fun p => p._id != id) ∧
      (deletePost s (IdParam.oid id)).1.comments =
        s.comments.filter (fun c => c.blogPost != id) ∧
      (deletePost s (IdParam.oid id)).1.users = s.users) ∧
    ((∀ p ∈ s.posts, p._id ≠ id) →
      deletePost s (IdParam.oid id) =
        (s, { status := 404, body := Body.error "Post not found" })) ∧
    deletePost s IdParam.malformed = (s, { status := 500, body := Body.serverError }) := by
  refine ⟨?_, ?_, rfl⟩
  · intro hex
    obtain ⟨p, hp⟩ := findById_isSome_of_mem s.posts id hex
    have hposts :
        (deletePost s (IdParam.oid id)).1.posts = s.posts.filter (fun p => p._id != id) := by
      simp only [deletePost, hp]
      exact eraseP_eq_filter_of_nodup id s.posts hu
    have hcomments : (deletePost s (IdParam.oid id)).1.comments =
        s.comments.filter (fun c => c.blogPost != id) := by
      simp only [deletePost, hp]
    have hnone : ∀ c ∈ (deletePost s (IdParam.oid id)).1.comments, c.blogPost ≠ id := by
      intro c hc
      rw [hcomments, List.mem_filter] at hc
      simpa using hc.2
    have habsent : ∀ p ∈ (deletePost s (IdParam.oid id)).1.posts, p._id ≠ id := by
      intro p' hp'
      rw [hposts, List.mem_filter] at hp'
      simpa using hp'.2
    refine ⟨by simp only [deletePost, hp], habsent,
      (findById_eq_none_iff _ _).mpr habsent, hnone, ?_, hposts, hcomments,
      by simp only [deletePost, hp]⟩
    intro q
    obtain ⟨h1, h2⟩ :=
      getPostComments_of_no_comment (deletePost s (IdParam.oid id)).1 id q hnone
    refine ⟨h1, fun hpage => ?_⟩
    rw [h2 hpage]
    exact ⟨rfl, rfl⟩
  · intro hno
    simp only [deletePost, (findById_eq_none_iff _ _).mpr hno]

/-- Witness of C3 (amended): deleting post 2 of the example store removes it
and its two comments, and keeps post 3 and its comment. -/
theorem deletePost_cascade_witness :
    postIdsUnique commentedPosts ∧ (∃ p ∈ commentedPosts.posts, p._id = 2) ∧
    (deletePost commentedPosts (IdParam.oid 2)).1.posts = [examplePost 3 20 none] ∧
    (deletePost commentedPosts (IdParam.oid 2)).1.comments = [exampleComment 5 3 21 2] ∧
    (deletePost commentedPosts (IdParam.oid 2)).2.status = 200 := by
  have hu : postIdsUnique commentedPosts := by unfold postIdsUnique; decide
  have hex : ∃ p ∈ commentedPosts.posts, p._id = 2 := ⟨examplePost 2 10 none, by decide, rfl⟩
  have h := (deletePost_cascade commentedPosts 2 hu).1 hex
  refine ⟨hu, hex, ?_, ?_, ?_⟩
  · rw [h.2.2.2.2.2.1]; decide
  · rw [h.2.2.2.2.2.2.1]; decide
  · rw [h.1]

/-! ### Creating a comment on a missing post -/

/-- C4 (counterexample): a comment-creation request whose `blogPostId` is `abc`,
which does not cast and so matches no stored post, is answered 500, not 404
(the store is unchanged). -/
theorem postComments_malformed_counterexample :
    postComments 100 commentedPosts commentOnMalformedPost =
      (commentedPosts, { status := 500, body := Body.serverError }) ∧
    (postComments 100 commentedPosts commentOnMalformedPost).2.status ≠ 404 := by
  decide

/-- C4 (amended): whatever the store, the text and the commenter, a
comment-creation request whose `blogPostId` is missing, or casts to an
identifier that no stored post has, is answered 404 `Blog post not found`; a
request whose `blogPostId` does not cast is answered 500. In both cases the
store after the request is the store before it: the same users, posts and
comments. -/
theorem postComments_missing_post (now : Nat) (s : Store) (b : CreateCommentBody)
    (h : ∀ id, b.blogPostId = some (IdParam.oid id) → ∀ p ∈ s.posts, p._id ≠ id) :
    (b.blogPostId ≠ some IdParam.malformed →
      postComments now s b =
        (s, { status := 404, body := Body.error "Blog post not found" })) ∧
    (b.blogPostId = some IdParam.malformed →
      postComments now s b = (s, { status := 500, body := Body.serverError })) ∧
    (postComments now s b).1 = s := by
  cases hid : b.blogPostId with
  | none =>
    refine ⟨fun _ => ?_, fun hm => Option.noConfusion hm, ?_⟩ <;>
      simp only [postComments, hid]
  | some v =>
    cases v with
    | malformed =>
      refine ⟨fun hm => absurd rfl hm, fun _ => ?_, ?_⟩ <;>
        simp only [postComments, hid]
    | oid id =>
      have hnone := (findById_eq_none_iff _ _).mpr (h id hid)
      refine ⟨fun _ => ?_, fun hm => ?_, ?_⟩
      · simp only [postComments, hid, hnone]
      · exact IdParam.noConfusion (Option.some.inj hm)
      · simp only [postComments, hid, hnone]

/-- Witness of C4 (amended): a comment on post 99 of the example store, which
has posts 2 and 3 only. -/
theorem postComments_missing_post_witness :
    (∀ id, commentOnMissingPost.blogPostId = some (IdParam.oid id) →
      ∀ p ∈ commentedPosts.posts, p._id ≠ id) ∧
    commentOnMissingPost.blogPostId ≠ some IdParam.malformed ∧
    postComments 100 commentedPosts commentOnMissingPost =
      (commentedPosts, { status := 404, body := Body.error "Blog post not found" }) := by
  have h : ∀ id, commentOnMissingPost.blogPostId = some (IdParam.oid id) →
      ∀ p ∈ commentedPosts.posts, p._id ≠ id := by
    intro id hid
    have h99 : id = 99 := by
      simp only [commentOnMissingPost, Option.some.injEq, IdParam.oid.injEq] at hid
      exact hid.symm
    subst h99
    decide
  have hm : commentOnMissingPost.blogPostId ≠ some IdParam.malformed := by decide
  exact ⟨h, hm, (postComments_missing_post 100 commentedPosts commentOnMissingPost h).1 hm⟩
/-! ### Registration and login -/

theorem register_find_some_iff (s : Store) (b : RegisterBody) :
    (∃ u, s.users.find? (fun u => u.email == b.email || u.username == b.username) = some u) ↔
      ∃ u ∈ s.users, u.username = b.username ∨ u.email = b.email := by
  constructor
  · rintro ⟨u, hu⟩
    refine ⟨u, List.mem_of_find?_eq_some hu, ?_⟩
    have := List.find?_some hu
    simp only [Bool.or_eq_true, beq_iff_eq] at this
    exact this.symm
  · rintro ⟨u, hu, hor⟩
    cases hf : s.users.find? (fun u => u.email == b.email || u.username == b.username) with
    | some v => exact ⟨v, rfl⟩
    | none =>
      rw [List.find?_eq_none] at hf
      have := hf u hu
      simp only [Bool.or_eq_true, beq_iff_eq, not_or] at this
      rcases hor with h | h
      · exact absurd h this.2
      · exact absurd h this.1

theorem register_status_cases (env : Env) (now : Nat) (s : Store) (b : RegisterBody) :
    ((∃ u ∈ s.users, u.username = b.username ∨ u.email = b.email) ∧
      postUsersRegister env now s b =
        (s, { status := 400, body := Body.error "User already exists" })) ∨
    ((¬ ∃ u ∈ s.users, u.username = b.username ∨ u.email = b.email) ∧
      (b.password = none ∨ env.userValid b.username b.email = false) ∧
      postUsersRegister env now s b = (s, { status := 500, body := Body.serverError })) ∨
    ((¬ ∃ u ∈ s.users, u.username = b.username ∨ u.email = b.email) ∧
      env.userValid b.username b.email = true ∧
      (postUsersRegister env now s b).2.status = 201 ∧
      ∃ password, b.password = some password ∧
        (postUsersRegister env now s b).1 =
          { s with
            users := s.users ++ [{ _id := s.nextId, username := b.username, email := b.email,
                                   password := env.hash password, registrationDate := now }]
            nextId := s.nextId + 1 }) := by
  cases hf : s.users.find? (fun u => u.email == b.email || u.username == b.username) with
  | some v =>
    left
    exact ⟨(register_find_some_iff s b).mp ⟨v, hf⟩, by simp only [postUsersRegister, hf]⟩
  | none =>
    right
    have hno : ¬ ∃ u ∈ s.users, u.username = b.username ∨ u.email = b.email := by
      intro hex
      obtain ⟨v, hv⟩ := (register_find_some_iff s b).mpr hex
      rw [hf] at hv
      exact Option.noConfusion hv
    cases hpw : b.password with
    | none => left; exact ⟨hno, Or.inl rfl, by simp only [postUsersRegister, hf, hpw]⟩
    | some password =>
      cases hv : env.userValid b.username b.email with
      | false => left; exact ⟨hno, Or.inr rfl, by simp [postUsersRegister, hf, hpw, hv]⟩
      | true =>
        right
        exact ⟨hno, rfl, by simp [postUsersRegister, hf, hpw, hv],
          password, rfl, by simp [postUsersRegister, hf, hpw, hv]⟩

/-- C5: whatever the store, `POST /api/users/register` answers 400 with the
error `User already exists` exactly when some stored user has the requested
username or some stored user has the requested email (no other path answers
400), and then the store is unchanged. In particular, after a registration
that succeeded, a registration with the same username and any email is
rejected so, and so is one with the same email and any username. -/
theorem register_conflict_iff (env : Env) (now : Nat) (s : Store) (b : RegisterBody) :
    ((postUsersRegister env now s b).2 =
        { status := 400, body := Body.error "User already exists" } ↔
      ∃ u ∈ s.users, u.username = b.username ∨ u.email = b.email) ∧
    ((postUsersRegister env now s b).2.status = 400 ↔
      ∃ u ∈ s.users, u.username = b.username ∨ u.email = b.email) ∧
    ((∃ u ∈ s.users, u.username = b.username ∨ u.email = b.email) →
      (postUsersRegister env now s b).1 = s) ∧
    ((postUsersRegister env now s b).2.status = 201 →
      ∀ (later : Nat) (other : RegisterBody),
        other.username = b.username ∨ other.email = b.email →
        postUsersRegister env later (postUsersRegister env now s b).1 other =
          ((postUsersRegister env now s b).1,
           { status := 400, body := Body.error "User already exists" })) := by
  rcases register_status_cases env now s b with ⟨hex, h⟩ | ⟨hno, _, h⟩ | ⟨hno, _, hst, hs⟩
  · refine ⟨?_, ?_, ?_, ?_⟩
    · rw [h]; exact ⟨fun _ => hex, fun _ => rfl⟩
    · rw [h]; exact ⟨fun _ => hex, fun _ => rfl⟩
    · intro _; rw [h]
    · rw [h]; intro h201; simp at h201
  · refine ⟨?_, ?_, ?_, ?_⟩
    · rw [h]; exact ⟨fun h' => by simp at h', fun h' => absurd h' hno⟩
    · rw [h]; exact ⟨fun h' => by simp at h', fun h' => absurd h' hno⟩
    · intro h'; exact absurd h' hno
    · rw [h]; intro h201; simp at h201
  · refine ⟨?_, ?_, ?_, ?_⟩
    · constructor
      · intro h'
        have := congrArg Response.status h'
        rw [hst] at this
        simp at this
      · intro h'; exact absurd h' hno
    · rw [hst]; exact ⟨fun h' => by simp at h', fun h' => absurd h' hno⟩
    · intro h'; exact absurd h' hno
    · intro _ later other hor
      obtain ⟨password, _, hs⟩ := hs
      have hex : ∃ u ∈ (postUsersRegister env now s b).1.users,
          u.username = other.username ∨ u.email = other.email := by
        rw [hs]
        refine ⟨_, List.mem_append_right _ (List.mem_singleton_self _), ?_⟩
        rcases hor with h | h
        · left; exact h.symm
        · right; exact h.symm
      rcases register_status_cases env later (postUsersRegister env now s b).1 other with
        ⟨_, h⟩ | ⟨hno', _, _⟩ | ⟨hno', _, _, _⟩
      · exact h
      · exact absurd hex hno'
      · exact absurd hex hno'

/-- Witness of C5: after `ann` has registered on the empty store, a second
registration with her username and another email is rejected, and so is one
with her email and another username. -/
theorem register_conflict_iff_witness :
    (postUsersRegister exampleEnv 0 emptyStore annRegisters).2.status = 201 ∧
    (postUsersRegister exampleEnv 1 (postUsersRegister exampleEnv 0 emptyStore annRegisters).1
        { username := "ann", email := "other@example.com", password := some "x" }).2 =
      { status := 400, body := Body.error "User already exists" } ∧
    (postUsersRegister exampleEnv 1 (postUsersRegister exampleEnv 0 emptyStore annRegisters).1
        { username := "bob", email := "ann@example.com", password := some "x" }).2 =
      { status := 400, body := Body.error "User already exists" } := by
  have h201 : (postUsersRegister exampleEnv 0 emptyStore annRegisters).2.status = 201 := by
    decide
  have h := (register_conflict_iff exampleEnv 0 emptyStore annRegisters).2.2.2 h201
  refine ⟨h201, ?_, ?_⟩
  · rw [h 1 { username := "ann", email := "other@example.com", password := some "x" }
      (Or.inl rfl)]
  · rw [h 1 { username := "bob", email := "ann@example.com", password := some "x" }
      (Or.inr rfl)]

/-- C6 (counterexample): with `ann` registered, a login request without a
password is answered 500 for the username `ann` and 401 for the unknown
username `bob`: the two responses differ with the existence of the username. -/
theorem login_missing_password_counterexample :
    postUsersLogin exampleEnv annRegistered annWithoutPassword =
      { status := 500, body := Body.serverError } ∧
    postUsersLogin exampleEnv annRegistered bobWithoutPassword = invalidCredentials ∧
    postUsersLogin exampleEnv annRegistered annWithoutPassword ≠
      postUsersLogin exampleEnv annRegistered bobWithoutPassword := by
  decide

/-- C6 (amended): whatever the store, a login whose username no stored user
has (with or without a password), and a login whose username is stored and
whose password is a string that fails `bcrypt.compare` against the stored hash,
get the same response, 401 with the body `{ error: 'Invalid credentials' }`
(also across two different stores and requests); the status is 200 exactly
when the user found by username exists and the password is a string that
verifies against that user's hash; a request that carries a password string
and does not succeed gets that 401 response; and a request without a password
string whose username is stored is answered 500. -/
theorem login_invalid_credentials (env : Env) (s : Store) (b : LoginBody) :
    ((∀ u ∈ s.users, u.username ≠ b.username) →
      postUsersLogin env s b = invalidCredentials) ∧
    (∀ u password, s.users.find? (fun u => u.username == b.username) = some u →
      b.password = some password → env.compare password u.password = false →
      postUsersLogin env s b = invalidCredentials) ∧
    (∀ (s2 : Store) (b2 : LoginBody) (u : User) (password : String),
      (∀ v ∈ s.users, v.username ≠ b.username) →
      s2.users.find? (fun v => v.username == b2.username) = some u →
      b2.password = some password → env.compare password u.password = false →
      postUsersLogin env s b = postUsersLogin env s2 b2) ∧
    ((postUsersLogin env s b).status = 200 ↔
      ∃ u password, s.users.find? (fun u => u.username == b.username) = some u ∧
        b.password = some password ∧ env.compare password u.password = true) ∧
    ((postUsersLogin env s b).status = 200 →
      ∃ u ∈ s.users, ∃ password, u.username = b.username ∧ b.password = some password ∧
        env.compare password u.password = true) ∧
    (∀ password, b.password = some password → (postUsersLogin env s b).status ≠ 200 →
      postUsersLogin env s b = invalidCredentials) ∧
    (b.password = none → (∃ u ∈ s.users, u.username = b.username) →
      postUsersLogin env s b = { status := 500, body := Body.serverError }) := by
  have hunknown : ∀ (s : Store) (b : LoginBody),
      (∀ u ∈ s.users, u.username ≠ b.username) →
      postUsersLogin env s b = invalidCredentials := by
    intro s b h
    have hf : s.users.find? (fun u => u.username == b.username) = none := by
      rw [List.find?_eq_none]
      intro u hu
      simpa using h u hu
    simp only [postUsersLogin, hf, invalidCredentials]
  have hwrong : ∀ (s : Store) (b : LoginBody) (u : User) (password : String),
      s.users.find? (fun u => u.username == b.username) = some u →
      b.password = some password → env.compare password u.password = false →
      postUsersLogin env s b = invalidCredentials := by
    intro s b u password hf hpw hc
    simp [postUsersLogin, hf, hpw, hc, invalidCredentials]
  have hiff : (postUsersLogin env s b).status = 200 ↔
      ∃ u password, s.users.find? (fun u => u.username == b.username) = some u ∧
        b.password = some password ∧ env.compare password u.password = true := by
    cases hf : s.users.find? (fun u => u.username == b.username) with
    | none => simp [postUsersLogin, hf]
    | some u =>
      cases hpw : b.password with
      | none => simp [postUsersLogin, hf, hpw]
      | some password =>
        cases hc : env.compare password u.password with
        | false => simp [postUsersLogin, hf, hpw, hc]
        | true => simp [postUsersLogin, hf, hpw, hc]
  refine ⟨hunknown s b, hwrong s b, ?_, hiff, ?_, ?_, ?_⟩
  · intro s2 b2 u password h1 h2 h3 h4
    rw [hunknown s b h1, hwrong s2 b2 u password h2 h3 h4]
  · intro h200
    obtain ⟨u, password, hf, hpw, hc⟩ := hiff.mp h200
    refine ⟨u, List.mem_of_find?_eq_some hf, password, ?_, hpw, hc⟩
    simpa using List.find?_some hf
  · intro password hpw hne
    cases hf : s.users.find? (fun u => u.username == b.username) with
    | none =>
      simp only [postUsersLogin, hf, invalidCredentials]
    | some u =>
      cases hc : env.compare password u.password with
      | false => exact hwrong s b u password hf hpw hc
      | true => exact absurd (hiff.mpr ⟨u, password, hf, hpw, hc⟩) hne
  · intro hpw hex
    cases hf : s.users.find? (fun u => u.username == b.username) with
    | none =>
      rw [List.find?_eq_none] at hf
      obtain ⟨u, hu, hname⟩ := hex
      exact absurd (by simpa using hname) (hf u hu)
    | some u =>
      simp only [postUsersLogin, hf, hpw]

/-- Witness of C6 (amended): with `ann` registered, a login of the unknown
`bob` and a login of `ann` with a wrong password get the same 401 response,
and `ann` with her password gets 200. -/
theorem login_invalid_credentials_witness :
    (∀ u ∈ annRegistered.users, u.username ≠ "bob") ∧
    postUsersLogin exampleEnv annRegistered { username := "bob", password := some "secret" } =
      postUsersLogin exampleEnv annRegistered { username := "ann", password := some "wrong" } ∧
    postUsersLogin exampleEnv annRegistered { username := "bob", password := some "secret" } =
      invalidCredentials ∧
    (postUsersLogin exampleEnv annRegistered
      { username := "ann", password := some "secret" }).status = 200 := by
  have hbob : ∀ u ∈ annRegistered.users, u.username ≠ "bob" := by decide
  have h := login_invalid_credentials exampleEnv annRegistered
    { username := "bob", password := some "secret" }
  refine ⟨hbob, ?_, h.1 hbob, by decide⟩
  exact h.2.2.1 annRegistered { username := "ann", password := some "wrong" }
    { _id := 0, username := "ann", email := "ann@example.com", password := "#secret",
      registrationDate := 0 } "wrong" hbob (by decide) rfl (by decide)
/-! ### Liking a post -/

theorem updateFirst_of_fixed {α : Type} (p : α → Bool) (f : α → α) (l : List α)
    (h : ∀ a, f a = a) : updateFirst p f l = l := by
  induction l with
  | nil => rfl
  | cons a l ih =>
    unfold updateFirst
    split
    · rw [h a]
    · rw [ih]

theorem incPostLikes_eq (p : BlogPost) : incPostLikes p = p := rfl

/-- The like handler of posts writes nothing: `likes` is not a path of
`blogPostSchema`, the cast removes the `$inc`, and the response reads no `likes`
value. -/
theorem postPostLike_store_unchanged (s : Store) (id : IdParam) :
    (postPostLike s id).1 = s ∧
    ∀ i p, id = IdParam.oid i → findById s.posts i = some p →
      (postPostLike s id).2 =
        { status := 200
          body := Body.postLiked "Post liked successfully" none (populateAuthor s.users p) } := by
  cases id with
  | malformed => exact ⟨rfl, fun i p h => IdParam.noConfusion h⟩
  | oid id =>
    cases hf : findById s.posts id with
    | none =>
      refine ⟨by simp only [postPostLike, hf], fun i p hi hp => ?_⟩
      cases hi
      rw [hf] at hp
      exact Option.noConfusion hp
    | some p =>
      constructor
      · simp only [postPostLike, hf]
        rw [updateFirst_of_fixed _ _ _ incPostLikes_eq]
      · intro i q hi hq
        cases hi
        rw [hf] at hq
        cases hq
        simp only [postPostLike, hf]
        rfl

/-- C7 (the code at the failing input): a post created through
`POST /api/posts` has no `likes` value; one like request on it answers 200 with
no `likes` value and leaves the store as it was, and after three like requests
the post still has no `likes` value. -/
theorem postPostLike_likes_not_incremented :
    annPosted.posts.map (fun p => (p._id, p.likes)) = [(1, none)] ∧
    (postPostLike annPosted (IdParam.oid 1)).1 = annPosted ∧
    (postPostLike annPosted (IdParam.oid 1)).2.status = 200 ∧
    (∃ message post,
      (postPostLike annPosted (IdParam.oid 1)).2.body = Body.postLiked message none post) ∧
    (run exampleEnv annPosted
      [(6, Request.likePost (IdParam.oid 1)), (7, Request.likePost (IdParam.oid 1)),
       (8, Request.likePost (IdParam.oid 1))]).posts.map
        (fun p => (p._id, p.likes)) = [(1, none)] := by
  refine ⟨by decide, by decide, by decide, ⟨_, _, rfl⟩, by decide⟩

/-! ### Validation of the comment text -/

theorem jsLength_eq_zero_iff (t : String) : jsLength t = 0 ↔ t = "" := by
  constructor
  · intro h
    unfold jsLength at h
    have hnil : t.toList = [] := by
      cases hl : t.toList with
      | nil => rfl
      | cons c cs =>
        rw [hl, List.map_cons, List.sum_cons] at h
        split at h <;> omega
    exact String.ext hnil
  · intro h
    subst h
    rfl

theorem commentTextValid_iff (t : String) :
    commentTextValid (some t) = true ↔
      1 ≤ jsLength (jsTrim t) ∧ jsLength (jsTrim t) ≤ 1000 := by
  have h0 := jsLength_eq_zero_iff (jsTrim t)
  simp only [commentTextValid, Bool.and_eq_true, bne_iff_ne, ne_eq, decide_eq_true_eq]
  constructor
  · rintro ⟨h1, h2⟩
    exact ⟨Nat.one_le_iff_ne_zero.mpr (fun h => h1 (h0.mp h)), h2⟩
  · rintro ⟨h1, h2⟩
    refine ⟨fun h => ?_, h2⟩
    have := h0.mpr h
    omega

/-- C8 (counterexample): against the existing post 2, a text that is one space
(length 1) is rejected with 500 and nothing is stored, and a text of length
1001 that ends in a space is accepted with 201 and one comment is stored. -/
theorem postComments_length_counterexample :
    (jsLength " " = 1 ∧
      postComments 100 commentedPosts spaceComment =
        (commentedPosts, { status := 500, body := Body.serverError })) ∧
    (jsLength paddedText = 1001 ∧
      (postComments 100 commentedPosts paddedComment).2.status = 201 ∧
      (postComments 100 commentedPosts paddedComment).1.comments.length =
        commentedPosts.comments.length + 1) := by
  set_option maxRecDepth 100000 in
  exact ⟨⟨by decide, by decide⟩, by decide, by decide, by decide⟩

/-- C8 (amended): for a comment-creation request against an existing post that
names a commenter, the text is judged after the `trim` setter has removed
leading and trailing white space. When the trimmed text has length 1 to 1000
the answer is 201 and exactly one comment, with the trimmed text, is appended
to the stored comments; when the text is missing, or the trimmed text is empty
or longer than 1000, the answer is 500 and the store is unchanged. -/
theorem postComments_text_validation (now : Nat) (s : Store) (b : CreateCommentBody)
    (id commenter : ObjectId) (hid : b.blogPostId = some (IdParam.oid id))
    (hc : b.commenterId = some (IdParam.oid commenter)) (hex : ∃ p ∈ s.posts, p._id = id) :
    (∀ t, b.text = some t → 1 ≤ jsLength (jsTrim t) → jsLength (jsTrim t) ≤ 1000 →
      (postComments now s b).2 =
        { status := 201
          body := Body.commentMessage "Comment added successfully"
            (populateCommenter s.users false (newComment now s t commenter id)) } ∧
      (postComments now s b).1.comments = s.comments ++ [newComment now s t commenter id] ∧
      (postComments now s b).1.posts = s.posts ∧
      (postComments now s b).1.users = s.users) ∧
    ((b.text = none ∨
        ∃ t, b.text = some t ∧ (jsLength (jsTrim t) = 0 ∨ 1000 < jsLength (jsTrim t))) →
      postComments now s b = (s, { status := 500, body := Body.serverError })) := by
  obtain ⟨p, hp⟩ := findById_isSome_of_mem s.posts id hex
  constructor
  · intro t ht h1 h2
    have hv : commentTextValid (some t) = true := (commentTextValid_iff t).mpr ⟨h1, h2⟩
    simp only [postComments, hid, hp, hc, ht, hv, if_true, Option.getD_some, newComment]
    exact ⟨trivial, trivial, trivial, trivial⟩
  · intro hbad
    have hv : commentTextValid b.text = false := by
      rcases hbad with hnone | ⟨t, ht, hlen⟩
      · rw [hnone]; rfl
      · rw [ht]
        cases hval : commentTextValid (some t) with
        | false => rfl
        | true =>
          have := (commentTextValid_iff t).mp hval
          omega
    simp only [postComments, hid, hp, hc, hv]
    rfl

/-- Witness of C8 (amended): a comment `"  nice  "` on post 2 of the example
store is stored as `"nice"`. -/
theorem postComments_text_validation_witness :
    (∃ p ∈ commentedPosts.posts, p._id = 2) ∧
    (postComments 100 commentedPosts niceComment).1.comments =
      commentedPosts.comments ++
        [{ _id := 7, text := "nice", commenter := 1, blogPost := 2, likes := 0,
           creationDate := 100, createdAt := 100, updatedAt := 100 }] := by
  have hex : ∃ p ∈ commentedPosts.posts, p._id = 2 := ⟨examplePost 2 10 none, by decide, rfl⟩
  have h := (postComments_text_validation 100 commentedPosts niceComment
    2 1 rfl rfl hex).1
    "  nice  " rfl (by decide) (by decide)
  refine ⟨hex, ?_⟩
  rw [h.2.1]
  decide

/-! ### Updating a post -/

theorem findById_updateFirst (id other : ObjectId) (f : BlogPost → BlogPost)
    (hf : ∀ p, (f p)._id = p._id) (l : List BlogPost) :
    findById (updateFirst (fun p => p._id == id) f l) other =
      if other = id then (findById l id).map f else findById l other := by
  induction l with
  | nil => simp [updateFirst, findById]
  | cons a l ih =>
    unfold updateFirst
    by_cases ha : a._id = id
    · have hb : (a._id == id) = true := by simpa using ha
      by_cases ho : other = id
      · subst ho
        have hb2 : ((f a)._id == other) = true := by rw [hf]; exact hb
        simp only [findById, List.find?_cons, hb, hb2, if_true, Option.map_some']
      · have hb2 : ((f a)._id == other) = false := by
          rw [hf]; simpa using fun h' => ho (h'.symm.trans ha)
        have hb3 : (a._id == other) = false := by
          simpa using fun h' => ho (h'.symm.trans ha)
        simp only [findById, List.find?_cons, hb, hb2, hb3, if_true, if_neg ho]
    · have hb : (a._id == id) = false := by simpa using ha
      simp only [findById] at ih
      by_cases hao : a._id = other
      · have ho : ¬ other = id := fun h' => ha (hao.trans h')
        have hb2 : (a._id == other) = true := by simpa using hao
        simp only [findById, List.find?_cons, hb, hb2, if_neg ho, Bool.false_eq_true, if_false]
      · have hb2 : (a._id == other) = false := by simpa using hao
        simp only [findById, List.find?_cons, hb, hb2, Bool.false_eq_true, if_false]
        exact ih

theorem updateFirst_eq_map (id : ObjectId) (f : BlogPost → BlogPost) (l : List BlogPost)
    (h : (l.map (fun p => p._id)).Nodup) :
    updateFirst (fun p => p._id == id) f l =
      l.map (fun p => if p._id = id then f p else p) := by
  induction l with
  | nil => rfl
  | cons a l ih =>
    rw [List.map_cons, List.nodup_cons] at h
    unfold updateFirst
    by_cases ha : a._id = id
    · have hl : l.map (fun p => if p._id = id then f p else p) = l := by
        conv_rhs => rw [← List.map_id l]
        apply List.map_congr_left
        intro p hp
        have : p._id ≠ id := fun hpid =>
          h.1 (List.mem_map.mpr ⟨p, hp, by rw [hpid, ha]⟩)
        simp [this]
      simp [ha, hl]
    · simp [ha, ih h.2]

/-- C9 (counterexample): an update of the existing post 2 whose body has an
empty title is answered 500 and replaces nothing, the stored title stays; the
same body for the unknown post 99 is answered 500, not 404; and a valid body
for `PUT /api/posts/abc`, whose identifier does not cast and so matches no
post, is answered 500, not 404. -/
theorem putPost_empty_title_counterexample :
    putPost commentedPosts (IdParam.oid 2) emptyTitleUpdate =
      (commentedPosts, { status := 500, body := Body.serverError }) ∧
    (findById (putPost commentedPosts (IdParam.oid 2) emptyTitleUpdate).1.posts 2).map
      (fun p => p.title) = some "title" ∧
    (∀ p ∈ commentedPosts.posts, p._id ≠ 99) ∧
    (putPost commentedPosts (IdParam.oid 99) emptyTitleUpdate).2.status = 500 ∧
    updateValid fullUpdate = true ∧
    putPost commentedPosts IdParam.malformed fullUpdate =
      (commentedPosts, { status := 500, body := Body.serverError }) := by
  decide

/-- C9 (amended): in a store whose posts have distinct identifiers, an update
whose body passes the update validators (a supplied title or content is not
empty) replaces, in the post with the identifier, each of title, content, tags
and category that the body supplies; the post keeps its identifier, author,
likes and creation date, every other post, every comment and every user is
unchanged, and the `author` and `likes` of the body have no effect. When the
body passes the validators and the identifier casts and matches no post, the
answer is 404 and the store is unchanged. A body that fails the validators, and
an identifier that does not cast, are answered 500 and the store is
unchanged. -/
theorem putPost_replaces_fields (s : Store) (id : ObjectId) (b : UpdatePostBody)
    (hu : postIdsUnique s) :
    (updateValid b = true → ∀ old, findById s.posts id = some old →
      (putPost s (IdParam.oid id) b).2 =
        { status := 200
          body := Body.postMessage "Post updated successfully"
            (populateAuthor s.users (applyUpdate b old)) } ∧
      findById (putPost s (IdParam.oid id) b).1.posts id = some (applyUpdate b old) ∧
      ((applyUpdate b old).title = b.title.getD old.title ∧
        (applyUpdate b old).content = b.content.getD old.content ∧
        (applyUpdate b old).tags = b.tags.getD old.tags ∧
        (applyUpdate b old).category = b.category.getD old.category) ∧
      ((applyUpdate b old)._id = old._id ∧ (applyUpdate b old).author = old.author ∧
        (applyUpdate b old).likes = old.likes ∧
        (applyUpdate b old).creationDate = old.creationDate) ∧
      (∀ other, other ≠ id →
        findById (putPost s (IdParam.oid id) b).1.posts other = findById s.posts other) ∧
      (putPost s (IdParam.oid id) b).1.posts =
        s.posts.map (fun p => if p._id = id then applyUpdate b p else p) ∧
      (putPost s (IdParam.oid id) b).1.comments = s.comments ∧
      (putPost s (IdParam.oid id) b).1.users = s.users) ∧
    (updateValid b = true → (∀ p ∈ s.posts, p._id ≠ id) →
      putPost s (IdParam.oid id) b = (s, { status := 404, body := Body.error "Post not found" })) ∧
    (updateValid b = false →
      putPost s (IdParam.oid id) b = (s, { status := 500, body := Body.serverError })) ∧
    putPost s IdParam.malformed b = (s, { status := 500, body := Body.serverError }) ∧
    (∀ i : IdParam, putPost s i b = putPost s i { b with author := none, likes := none }) := by
  refine ⟨?_, ?_, ?_, rfl, ?_⟩
  · intro hv old hold
    have hfind := findById_updateFirst id id (applyUpdate b) (fun _ => rfl) s.posts
    refine ⟨by simp only [putPost, hv, hold, if_true], ?_, ⟨rfl, rfl, rfl, rfl⟩,
      ⟨rfl, rfl, rfl, rfl⟩, ?_, ?_, by simp only [putPost, hv, hold, if_true],
      by simp only [putPost, hv, hold, if_true]⟩
    · simp only [putPost, hv, hold, if_true]
      rw [hfind, if_pos rfl, hold, Option.map_some']
    · intro other hother
      simp only [putPost, hv, hold, if_true]
      rw [findById_updateFirst id other (applyUpdate b) (fun _ => rfl) s.posts,
        if_neg hother]
    · simp only [putPost, hv, hold, if_true]
      exact updateFirst_eq_map id (applyUpdate b) s.posts hu
  · intro hv hno
    simp only [putPost, hv, (findById_eq_none_iff _ _).mpr hno, if_true]
  · intro hv
    simp [putPost, hv]
  · intro i
    cases i <;> rfl

/-- Witness of C9 (amended): updating post 2 of the example store with a body
that also carries an author and likes changes the four fields of post 2 only. -/
theorem putPost_replaces_fields_witness :
    postIdsUnique commentedPosts ∧ updateValid fullUpdate = true ∧
    (putPost commentedPosts (IdParam.oid 2) fullUpdate).1.posts =
      [{ _id := 2, title := "new title", content := "new content", author := 1,
         creationDate := 10, tags := ["a"], category := "News", likes := none },
       examplePost 3 20 none] ∧
    (putPost commentedPosts (IdParam.oid 2) fullUpdate).1.comments = commentedPosts.comments := by
  have hu : postIdsUnique commentedPosts := by unfold postIdsUnique; decide
  have h := (putPost_replaces_fields commentedPosts 2 fullUpdate hu).1 (by decide)
    (examplePost 2 10 none) (by decide)
  refine ⟨hu, by decide, ?_, h.2.2.2.2.2.2.1⟩
  rw [h.2.2.2.2.2.1]
  decide

/-! ### The users of the store under every request -/

theorem postPosts_users (now : Nat) (s : Store) (b : CreatePostBody) :
    (postPosts now s b).1.users = s.users := by
  unfold postPosts
  split
  · rfl
  · rfl
  · split <;> rfl

theorem putPost_users (s : Store) (id : IdParam) (b : UpdatePostBody) :
    (putPost s id b).1.users = s.users := by
  unfold putPost
  split
  · rfl
  · split
    · split <;> rfl
    · rfl

theorem deletePost_users (s : Store) (id : IdParam) : (deletePost s id).1.users = s.users := by
  unfold deletePost
  split
  · rfl
  · split <;> rfl

theorem postPostLike_users (s : Store) (id : IdParam) :
    (postPostLike s id).1.users = s.users := by
  unfold postPostLike
  split
  · rfl
  · split <;> rfl

theorem postComments_users (now : Nat) (s : Store) (b : CreateCommentBody) :
    (postComments now s b).1.users = s.users := by
  unfold postComments
  split
  · rfl
  · rfl
  · split
    · rfl
    · split
      · split <;> rfl
      · rfl

theorem deleteComment_users (s : Store) (id : IdParam) :
    (deleteComment s id).1.users = s.users := by
  unfold deleteComment
  split
  · rfl
  · split <;> rfl

theorem postCommentLike_users (now : Nat) (s : Store) (id : IdParam) :
    (postCommentLike now s id).1.users = s.users := by
  unfold postCommentLike
  split
  · rfl
  · split <;> rfl

theorem postUsersRegister_usersUnique (env : Env) (now : Nat) (s : Store) (b : RegisterBody)
    (h : usersUnique s) : usersUnique (postUsersRegister env now s b).1 := by
  rcases register_status_cases env now s b with
    ⟨_, hs⟩ | ⟨_, _, hs⟩ | ⟨hno, _, _, password, _, hs⟩
  · rw [hs]; exact h
  · rw [hs]; exact h
  · rw [hs]
    have hname : b.username ∉ s.users.map (fun u => u.username) := by
      intro hmem
      obtain ⟨u, hu, hun⟩ := List.mem_map.mp hmem
      exact hno ⟨u, hu, Or.inl hun⟩
    have hmail : b.email ∉ s.users.map (fun u => u.email) := by
      intro hmem
      obtain ⟨u, hu, hue⟩ := List.mem_map.mp hmem
      exact hno ⟨u, hu, Or.inr hue⟩
    constructor
    · simp only [List.map_append, List.map_cons, List.map_nil]
      rw [List.nodup_append]
      exact ⟨h.1, List.nodup_singleton _, by
        intro a ha hb
        rw [List.mem_singleton] at hb
        exact hname (hb ▸ ha)⟩
    · simp only [List.map_append, List.map_cons, List.map_nil]
      rw [List.nodup_append]
      exact ⟨h.2, List.nodup_singleton _, by
        intro a ha hb
        rw [List.mem_singleton] at hb
        exact hmail (hb ▸ ha)⟩

theorem handle_usersUnique (env : Env) (now : Nat) (s : Store) (r : Request)
    (h : usersUnique s) : usersUnique (handle env now s r).1 := by
  cases r with
  | register b => exact postUsersRegister_usersUnique env now s b h
  | login b => exact h
  | createPost b => unfold usersUnique; simp only [handle, postPosts_users]; exact h
  | listPosts q => exact h
  | getPost id => exact h
  | updatePost id b => unfold usersUnique; simp only [handle, putPost_users]; exact h
  | deletePost id => unfold usersUnique; simp only [handle, deletePost_users]; exact h
  | likePost id => unfold usersUnique; simp only [handle, postPostLike_users]; exact h
  | createComment b => unfold usersUnique; simp only [handle, postComments_users]; exact h
  | listComments postId q => exact h
  | deleteComment id => unfold usersUnique; simp only [handle, deleteComment_users]; exact h
  | likeComment id => unfold usersUnique; simp only [handle, postCommentLike_users]; exact h
  | root => exact h

/-- C10: uniqueness of usernames and of emails is an invariant of the server.
From a store in which no two users share a username and no two share an email,
every sequence of requests to the routes, each handled to completion, leads to
a store with the same property. -/
theorem run_usersUnique (env : Env) (s : Store) (reqs : List (Nat × Request))
    (h : usersUnique s) : usersUnique (run env s reqs) := by
  induction reqs generalizing s with
  | nil => exact h
  | cons r rest ih =>
    obtain ⟨now, r⟩ := r
    exact ih (handle env now s r).1 (handle_usersUnique env now s r h)

/-- Witness of C10: on the empty store, a trace with two conflicting
registrations among four leaves the users `ann` and `bob`, each once. -/
theorem run_usersUnique_witness :
    usersUnique emptyStore ∧
    (run exampleEnv emptyStore registrationTrace).users.map (fun u => (u.username, u.email)) =
      [("ann", "ann@example.com"), ("bob", "bob@example.com")] ∧
    usersUnique (run exampleEnv emptyStore registrationTrace) := by
  have h0 : usersUnique emptyStore := by unfold usersUnique; decide
  exact ⟨h0, by decide, run_usersUnique exampleEnv emptyStore registrationTrace h0⟩

/-! ### The posts and comments of the store under every request -/

theorem postUsersRegister_posts_comments (env : Env) (now : Nat) (s : Store) (b : RegisterBody) :
    (postUsersRegister env now s b).1.posts = s.posts ∧
    (postUsersRegister env now s b).1.comments = s.comments := by
  rcases register_status_cases env now s b with
    ⟨_, hs⟩ | ⟨_, _, hs⟩ | ⟨_, _, _, password, _, hs⟩ <;>
    rw [hs] <;> exact ⟨rfl, rfl⟩

theorem postPosts_comments (now : Nat) (s : Store) (b : CreatePostBody) :
    (postPosts now s b).1.comments = s.comments := by
  unfold postPosts
  split
  · rfl
  · rfl
  · split <;> rfl

theorem postPosts_posts (now : Nat) (s : Store) (b : CreatePostBody) :
    (postPosts now s b).1.posts = s.posts ∨
    ∃ post : BlogPost, post.likes = none ∧ (postPosts now s b).1.posts = s.posts ++ [post] := by
  unfold postPosts
  split
  · exact Or.inl rfl
  · exact Or.inl rfl
  · split
    · exact Or.inr ⟨_, rfl, rfl⟩
    · exact Or.inl rfl

theorem putPost_comments (s : Store) (id : IdParam) (b : UpdatePostBody) :
    (putPost s id b).1.comments = s.comments := by
  unfold putPost
  split
  · rfl
  · split
    · split <;> rfl
    · rfl

theorem putPost_posts (s : Store) (id : IdParam) (b : UpdatePostBody) :
    (putPost s id b).1.posts = s.posts ∨
    ∃ i, id = IdParam.oid i ∧
      (putPost s id b).1.posts = updateFirst (fun p => p._id == i) (applyUpdate b) s.posts := by
  unfold putPost
  split
  · exact Or.inl rfl
  · split
    · split
      · exact Or.inl rfl
      · exact Or.inr ⟨_, rfl, rfl⟩
    · exact Or.inl rfl

theorem deletePost_posts_comments (s : Store) (id : IdParam) :
    (deletePost s id).1 = s ∨
    ∃ i, id = IdParam.oid i ∧
      (deletePost s id).1.posts = s.posts.eraseP (fun p => p._id == i) ∧
      (deletePost s id).1.comments = s.comments.filter (fun c => c.blogPost != i) := by
  unfold deletePost
  split
  · exact Or.inl rfl
  · split
    · exact Or.inl rfl
    · exact Or.inr ⟨_, rfl, rfl, rfl⟩

theorem postComments_posts (now : Nat) (s : Store) (b : CreateCommentBody) :
    (postComments now s b).1.posts = s.posts := by
  unfold postComments
  split
  · rfl
  · rfl
  · split
    · rfl
    · split
      · split <;> rfl
      · rfl

theorem postComments_comments (now : Nat) (s : Store) (b : CreateCommentBody) :
    (postComments now s b).1.comments = s.comments ∨
    ∃ comment : Comment, comment.likes = 0 ∧ (∃ p ∈ s.posts, p._id = comment.blogPost) ∧
      (postComments now s b).1.comments = s.comments ++ [comment] := by
  unfold postComments
  split
  · exact Or.inl rfl
  · exact Or.inl rfl
  · rename_i blogPostId _
    split
    · exact Or.inl rfl
    · rename_i p hf
      split
      · split
        · exact Or.inr ⟨_, rfl, (findById_isSome_of_mem_iff s.posts blogPostId).mp ⟨p, hf⟩, rfl⟩
        · exact Or.inl rfl
      · exact Or.inl rfl

theorem deleteComment_posts (s : Store) (id : IdParam) :
    (deleteComment s id).1.posts = s.posts := by
  unfold deleteComment
  split
  · rfl
  · split <;> rfl

theorem deleteComment_comments (s : Store) (id : IdParam) :
    (deleteComment s id).1.comments = s.comments ∨
    ∃ i, id = IdParam.oid i ∧
      (deleteComment s id).1.comments = s.comments.eraseP (fun c => c._id == i) := by
  unfold deleteComment
  split
  · exact Or.inl rfl
  · split
    · exact Or.inl rfl
    · exact Or.inr ⟨_, rfl, rfl⟩

theorem postCommentLike_posts (now : Nat) (s : Store) (id : IdParam) :
    (postCommentLike now s id).1.posts = s.posts := by
  unfold postCommentLike
  split
  · rfl
  · split <;> rfl

theorem postCommentLike_comments (now : Nat) (s : Store) (id : IdParam) :
    (postCommentLike now s id).1.comments = s.comments ∨
    ∃ i, id = IdParam.oid i ∧
      (postCommentLike now s id).1.comments =
        updateFirst (fun c => c._id == i) (incCommentLikes now) s.comments := by
  unfold postCommentLike
  split
  · exact Or.inl rfl
  · split
    · exact Or.inl rfl
    · exact Or.inr ⟨_, rfl, rfl⟩

/-! ### Referential integrity of comments -/

theorem map_id_updateFirst (id : ObjectId) (f : BlogPost → BlogPost)
    (hf : ∀ p, (f p)._id = p._id) (l : List BlogPost) :
    (updateFirst (fun p => p._id == id) f l).map (fun p => p._id) = l.map (fun p => p._id) := by
  induction l with
  | nil => rfl
  | cons a l ih =>
    unfold updateFirst
    split
    · simp only [List.map_cons, hf]
    · simp only [List.map_cons, ih]

theorem mem_updateFirst {α : Type} (p : α → Bool) (f : α → α) (l : List α) (x : α)
    (hx : x ∈ updateFirst p f l) : x ∈ l ∨ ∃ a ∈ l, x = f a := by
  induction l with
  | nil => simp [updateFirst] at hx
  | cons a l ih =>
    unfold updateFirst at hx
    split at hx
    · rcases List.mem_cons.mp hx with h | h
      · exact Or.inr ⟨a, List.mem_cons_self _ _, h⟩
      · exact Or.inl (List.mem_cons_of_mem _ h)
    · rcases List.mem_cons.mp hx with h | h
      · exact Or.inl (h ▸ List.mem_cons_self _ _)
      · rcases ih h with h' | ⟨b, hb, hxb⟩
        · exact Or.inl (List.mem_cons_of_mem _ h')
        · exact Or.inr ⟨b, List.mem_cons_of_mem _ hb, hxb⟩

theorem resolves_iff_mem_ids (posts : List BlogPost) (id : ObjectId) :
    (∃ p ∈ posts, p._id = id) ↔ id ∈ posts.map (fun p => p._id) := by
  simp [List.mem_map]

theorem incCommentLikes_eq (now : Nat) (c : Comment) :
    incCommentLikes now c = { c with likes := c.likes + 1, updatedAt := now } := rfl

theorem handle_commentsResolve (env : Env) (now : Nat) (s : Store) (r : Request)
    (h : commentsResolve s) : commentsResolve (handle env now s r).1 := by
  cases r with
  | register b =>
    intro c hc
    obtain ⟨hp, hcm⟩ := postUsersRegister_posts_comments env now s b
    simp only [handle] at hc ⊢
    rw [hcm] at hc
    rw [hp]
    exact h c hc
  | login b => exact h
  | createPost b =>
    intro c hc
    simp only [handle] at hc ⊢
    rw [postPosts_comments] at hc
    obtain ⟨p, hp, hid⟩ := h c hc
    rcases postPosts_posts now s b with hs | ⟨post, _, hs⟩
    · rw [hs]; exact ⟨p, hp, hid⟩
    · rw [hs]; exact ⟨p, List.mem_append_left _ hp, hid⟩
  | listPosts q => exact h
  | getPost id => exact h
  | updatePost id b =>
    intro c hc
    simp only [handle] at hc ⊢
    rw [putPost_comments] at hc
    rcases putPost_posts s id b with hs | ⟨i, _, hs⟩
    · rw [hs]; exact h c hc
    · rw [hs, resolves_iff_mem_ids, map_id_updateFirst i (applyUpdate b) (fun _ => rfl),
        ← resolves_iff_mem_ids]
      exact h c hc
  | deletePost id =>
    intro c hc
    simp only [handle] at hc ⊢
    rcases deletePost_posts_comments s id with hs | ⟨i, _, hps, hcs⟩
    · rw [hs] at hc ⊢; exact h c hc
    · rw [hcs, List.mem_filter] at hc
      have hne : c.blogPost ≠ i := by simpa using hc.2
      obtain ⟨p, hp, hid⟩ := h c hc.1
      rw [hps]
      refine ⟨p, ?_, hid⟩
      rw [List.mem_eraseP_of_neg (by simpa [hid] using hne)]
      exact hp
  | likePost id =>
    simp only [handle]
    rw [(postPostLike_store_unchanged s id).1]
    exact h
  | createComment b =>
    intro c hc
    simp only [handle] at hc ⊢
    rw [postComments_posts]
    rcases postComments_comments now s b with hs | ⟨comment, _, hres, hs⟩
    · rw [hs] at hc; exact h c hc
    · rw [hs, List.mem_append, List.mem_singleton] at hc
      rcases hc with hc | hc
      · exact h c hc
      · rw [hc]; exact hres
  | listComments postId q => exact h
  | deleteComment id =>
    intro c hc
    simp only [handle] at hc ⊢
    rw [deleteComment_posts]
    rcases deleteComment_comments s id with hs | ⟨i, _, hs⟩
    · rw [hs] at hc; exact h c hc
    · rw [hs] at hc; exact h c (List.mem_of_mem_eraseP hc)
  | likeComment id =>
    intro c hc
    simp only [handle] at hc ⊢
    rw [postCommentLike_posts]
    rcases postCommentLike_comments now s id with hs | ⟨i, _, hs⟩
    · rw [hs] at hc; exact h c hc
    · rw [hs] at hc
      rcases mem_updateFirst _ _ _ _ hc with hc' | ⟨a, ha, hca⟩
      · exact h c hc'
      · rw [hca, incCommentLikes_eq]
        exact h a ha
  | root => exact h

/-- C12: referential integrity of comments is an invariant of the server when
each handler runs to completion. From a store in which the `blogPost` of every
comment is the identifier of a stored post, every sequence of requests to the
routes (create, update, delete and like of posts, create, delete and like of
comments, and the other routes) leads to a store in which the `blogPost` of
every comment is still the identifier of a stored post. -/
theorem run_commentsResolve (env : Env) (s : Store) (reqs : List (Nat × Request))
    (h : commentsResolve s) : commentsResolve (run env s reqs) := by
  induction reqs generalizing s with
  | nil => exact h
  | cons r rest ih =>
    obtain ⟨now, r⟩ := r
    exact ih (handle env now s r).1 (handle_commentsResolve env now s r h)

/-- Witness of C12: in the example store every comment is on post 2 or 3; after
a trace that deletes post 2, refuses a comment on it and adds one on post 3,
the comments left are those on post 3, which is still stored. -/
theorem run_commentsResolve_witness :
    commentsResolve commentedPosts ∧
    (run exampleEnv commentedPosts commentTrace).comments.map (fun c => (c._id, c.blogPost)) =
      [(7, 3)] ∧
    (run exampleEnv commentedPosts commentTrace).posts.map (fun p => p._id) = [3, 8] ∧
    commentsResolve (run exampleEnv commentedPosts commentTrace) := by
  have h0 : commentsResolve commentedPosts := by
    unfold commentsResolve
    decide
  exact ⟨h0, by decide, by decide, run_commentsResolve exampleEnv commentedPosts commentTrace h0⟩

/-! ### Likes counters under every request -/

theorem findById_some (posts : List BlogPost) (id : ObjectId) (p : BlogPost)
    (h : findById posts id = some p) : p ∈ posts ∧ p._id = id := by
  refine ⟨List.mem_of_find?_eq_some h, ?_⟩
  simpa using List.find?_some h

theorem findCommentById_some (comments : List Comment) (id : ObjectId) (c : Comment)
    (h : findCommentById comments id = some c) : c ∈ comments ∧ c._id = id := by
  refine ⟨List.mem_of_find?_eq_some h, ?_⟩
  simpa using List.find?_some h

theorem findCommentById_updateFirst (id other : ObjectId) (f : Comment → Comment)
    (hf : ∀ c, (f c)._id = c._id) (l : List Comment) :
    findCommentById (updateFirst (fun c => c._id == id) f l) other =
      if other = id then (findCommentById l id).map f else findCommentById l other := by
  induction l with
  | nil => simp [updateFirst, findCommentById]
  | cons a l ih =>
    unfold updateFirst
    by_cases ha : a._id = id
    · have hb : (a._id == id) = true := by simpa using ha
      by_cases ho : other = id
      · subst ho
        have hb2 : ((f a)._id == other) = true := by rw [hf]; exact hb
        simp only [findCommentById, List.find?_cons, hb, hb2, if_true, Option.map_some']
      · have hb2 : ((f a)._id == other) = false := by
          rw [hf]; simpa using fun h' => ho (h'.symm.trans ha)
        have hb3 : (a._id == other) = false := by
          simpa using fun h' => ho (h'.symm.trans ha)
        simp only [findCommentById, List.find?_cons, hb, hb2, hb3, if_true, if_neg ho]
    · have hb : (a._id == id) = false := by simpa using ha
      simp only [findCommentById] at ih
      by_cases hao : a._id = other
      · have ho : ¬ other = id := fun h' => ha (hao.trans h')
        have hb2 : (a._id == other) = true := by simpa using hao
        simp only [findCommentById, List.find?_cons, hb, hb2, if_neg ho, Bool.false_eq_true,
          if_false]
      · have hb2 : (a._id == other) = false := by simpa using hao
        simp only [findCommentById, List.find?_cons, hb, hb2, Bool.false_eq_true, if_false]
        exact ih

/-- What a request does to a stored post that is still stored afterwards: its
`likes` value is the same. -/
theorem handle_post_likes (env : Env) (now : Nat) (s : Store) (r : Request)
    (hu : postIdsUnique s) (id : ObjectId) (p p' : BlogPost)
    (hp : findById s.posts id = some p)
    (hp' : findById (handle env now s r).1.posts id = some p') : p'.likes = p.likes := by
  have same : findById s.posts id = some p' → p'.likes = p.likes := by
    intro h
    rw [hp] at h
    rw [← Option.some.inj h]
  cases r with
  | register b =>
    simp only [handle] at hp'
    rw [(postUsersRegister_posts_comments env now s b).1] at hp'
    exact same hp'
  | login b => exact same hp'
  | createPost b =>
    simp only [handle] at hp'
    rcases postPosts_posts now s b with hs | ⟨post, _, hs⟩
    · rw [hs] at hp'; exact same hp'
    · rw [hs] at hp'
      unfold findById at hp' hp
      rw [List.find?_append, hp] at hp'
      have heq : some p = some p' := hp'
      rw [← Option.some.inj heq]
  | listPosts q => exact same hp'
  | getPost id => exact same hp'
  | updatePost id0 b =>
    simp only [handle] at hp'
    rcases putPost_posts s id0 b with hs | ⟨i0, _, hs⟩
    · rw [hs] at hp'; exact same hp'
    · rw [hs, findById_updateFirst i0 id (applyUpdate b) (fun _ => rfl)] at hp'
      split at hp'
      · rename_i hid
        rw [← hid, hp, Option.map_some'] at hp'
        rw [← Option.some.inj hp']
        rfl
      · exact same hp'
  | deletePost id0 =>
    simp only [handle] at hp'
    rcases deletePost_posts_comments s id0 with hs | ⟨i0, _, hps, _⟩
    · rw [hs] at hp'; exact same hp'
    · rw [hps] at hp'
      obtain ⟨hmem', hid'⟩ := findById_some _ _ _ hp'
      obtain ⟨hmem, hid⟩ := findById_some _ _ _ hp
      have : p' = p :=
        List.inj_on_of_nodup_map hu (List.mem_of_mem_eraseP hmem') hmem (hid'.trans hid.symm)
      rw [this]
  | likePost id0 =>
    simp only [handle] at hp'
    rw [(postPostLike_store_unchanged s id0).1] at hp'
    exact same hp'
  | createComment b =>
    simp only [handle] at hp'
    rw [postComments_posts] at hp'
    exact same hp'
  | listComments postId q => exact same hp'
  | deleteComment id0 =>
    simp only [handle] at hp'
    rw [deleteComment_posts] at hp'
    exact same hp'
  | likeComment id0 =>
    simp only [handle] at hp'
    rw [postCommentLike_posts] at hp'
    exact same hp'
  | root => exact same hp'

/-- What a request does to a stored comment that is still stored afterwards:
its `likes` value is the same, or the request is the like of that comment and
the value is one more. -/
theorem handle_comment_likes (env : Env) (now : Nat) (s : Store) (r : Request)
    (hu : commentIdsUnique s) (id : ObjectId) (c c' : Comment)
    (hc : findCommentById s.comments id = some c)
    (hc' : findCommentById (handle env now s r).1.comments id = some c') :
    (r ≠ Request.likeComment (IdParam.oid id) ∧ c'.likes = c.likes) ∨
    (r = Request.likeComment (IdParam.oid id) ∧ c'.likes = c.likes + 1) := by
  have same : ∀ r : Request, r ≠ Request.likeComment (IdParam.oid id) →
      findCommentById s.comments id = some c' →
      (r ≠ Request.likeComment (IdParam.oid id) ∧ c'.likes = c.likes) ∨
      (r = Request.likeComment (IdParam.oid id) ∧ c'.likes = c.likes + 1) := by
    intro r hr h
    rw [hc] at h
    rw [← Option.some.inj h]
    exact Or.inl ⟨hr, rfl⟩
  have sub : ∀ r : Request, r ≠ Request.likeComment (IdParam.oid id) → c' ∈ s.comments →
      c'._id = id →
      (r ≠ Request.likeComment (IdParam.oid id) ∧ c'.likes = c.likes) ∨
      (r = Request.likeComment (IdParam.oid id) ∧ c'.likes = c.likes + 1) := by
    intro r hr hmem' hid'
    obtain ⟨hmem, hid⟩ := findCommentById_some _ _ _ hc
    have : c' = c := List.inj_on_of_nodup_map hu hmem' hmem (hid'.trans hid.symm)
    rw [this]
    exact Or.inl ⟨hr, rfl⟩
  cases r with
  | register b =>
    simp only [handle] at hc'
    rw [(postUsersRegister_posts_comments env now s b).2] at hc'
    exact same _ (fun h => Request.noConfusion h) hc'
  | login b => exact same _ (fun h => Request.noConfusion h) hc'
  | createPost b =>
    simp only [handle] at hc'
    rw [postPosts_comments] at hc'
    exact same _ (fun h => Request.noConfusion h) hc'
  | listPosts q => exact same _ (fun h => Request.noConfusion h) hc'
  | getPost id0 => exact same _ (fun h => Request.noConfusion h) hc'
  | updatePost id0 b =>
    simp only [handle] at hc'
    rw [putPost_comments] at hc'
    exact same _ (fun h => Request.noConfusion h) hc'
  | deletePost id0 =>
    simp only [handle] at hc'
    obtain ⟨hmem', hid'⟩ := findCommentById_some _ _ _ hc'
    rcases deletePost_posts_comments s id0 with hs | ⟨i0, _, _, hcs⟩
    · rw [hs] at hmem'; exact sub _ (fun h => Request.noConfusion h) hmem' hid'
    · rw [hcs] at hmem'
      exact sub _ (fun h => Request.noConfusion h) (List.mem_filter.mp hmem').1 hid'
  | likePost id0 =>
    simp only [handle] at hc'
    rw [(postPostLike_store_unchanged s id0).1] at hc'
    exact same _ (fun h => Request.noConfusion h) hc'
  | createComment b =>
    simp only [handle] at hc'
    rcases postComments_comments now s b with hs | ⟨comment, _, _, hs⟩
    · rw [hs] at hc'; exact same _ (fun h => Request.noConfusion h) hc'
    · rw [hs] at hc'
      unfold findCommentById at hc' hc
      rw [List.find?_append, hc] at hc'
      have heq : some c = some c' := hc'
      rw [← Option.some.inj heq]
      exact Or.inl ⟨fun h => Request.noConfusion h, rfl⟩
  | listComments postId q => exact same _ (fun h => Request.noConfusion h) hc'
  | deleteComment id0 =>
    simp only [handle] at hc'
    obtain ⟨hmem', hid'⟩ := findCommentById_some _ _ _ hc'
    rcases deleteComment_comments s id0 with hs | ⟨i0, _, hs⟩
    · rw [hs] at hmem'; exact sub _ (fun h => Request.noConfusion h) hmem' hid'
    · rw [hs] at hmem'
      exact sub _ (fun h => Request.noConfusion h) (List.mem_of_mem_eraseP hmem') hid'
  | likeComment id0 =>
    simp only [handle] at hc'
    by_cases hid : id0 = IdParam.oid id
    · subst hid
      have hst : (postCommentLike now s (IdParam.oid id)).1.comments =
          updateFirst (fun c => c._id == id) (incCommentLikes now) s.comments := by
        simp only [postCommentLike, hc]
      rw [hst, findCommentById_updateFirst id id (incCommentLikes now) (fun _ => rfl),
        if_pos rfl, hc, Option.map_some'] at hc'
      rw [← Option.some.inj hc']
      exact Or.inr ⟨rfl, rfl⟩
    · have hr : Request.likeComment id0 ≠ Request.likeComment (IdParam.oid id) := by
        intro h
        exact hid (Request.likeComment.inj h)
      rcases postCommentLike_comments now s id0 with hs | ⟨i0, hi0, hs⟩
      · rw [hs] at hc'; exact same _ hr hc'
      · have hne : ¬ id = i0 := by
          intro h
          exact hid (by rw [hi0, h])
        rw [hs, findCommentById_updateFirst i0 id (incCommentLikes now) (fun _ => rfl),
          if_neg hne] at hc'
        exact same _ hr hc'
  | root => exact same _ (fun h => Request.noConfusion h) hc'

/-- C11: in a store whose posts and whose comments have distinct identifiers,
no request to any route lowers a likes counter. For a post stored under an
identifier before and after the request, the counter after (an absent value
counting as 0) is at least the counter before, and it could be greater only
after the like of that post (in fact it is the same value after every
request). For a comment stored before and after the request, the counter after
is at least the counter before, it is greater only after the like of that
comment, which adds exactly 1, and a counter is a natural number, never
negative. -/
theorem handle_likes_monotone (env : Env) (now : Nat) (s : Store) (r : Request)
    (hp : postIdsUnique s) (hc : commentIdsUnique s) :
    (∀ id p p', findById s.posts id = some p →
      findById (handle env now s r).1.posts id = some p' →
        p.likes.getD 0 ≤ p'.likes.getD 0 ∧
        (p.likes.getD 0 < p'.likes.getD 0 → r = Request.likePost (IdParam.oid id)) ∧
        0 ≤ p'.likes.getD 0 ∧
        p'.likes = p.likes) ∧
    (∀ id c c', findCommentById s.comments id = some c →
      findCommentById (handle env now s r).1.comments id = some c' →
        c.likes ≤ c'.likes ∧
        (c.likes < c'.likes → r = Request.likeComment (IdParam.oid id)) ∧
        0 ≤ c'.likes ∧
        (r = Request.likeComment (IdParam.oid id) → c'.likes = c.likes + 1)) := by
  constructor
  · intro id p p' h h'
    have heq := handle_post_likes env now s r hp id p p' h h'
    rw [heq]
    exact ⟨le_refl _, fun hlt => absurd hlt (lt_irrefl _), Nat.zero_le _, rfl⟩
  · intro id c c' h h'
    rcases handle_comment_likes env now s r hc id c c' h h' with ⟨hr, heq⟩ | ⟨hr, heq⟩
    · rw [heq]
      exact ⟨le_refl _, fun hlt => absurd hlt (lt_irrefl _), Nat.zero_le _,
        fun hr' => absurd hr' hr⟩
    · rw [heq]
      exact ⟨Nat.le_succ _, fun _ => hr, Nat.zero_le _, fun _ => rfl⟩

/-- Witness of C11: in the example store comment 5 has 2 likes; after the like
of comment 5 it has 3, and after the like of comment 4 it still has 2. -/
theorem handle_likes_monotone_witness :
    postIdsUnique commentedPosts ∧ commentIdsUnique commentedPosts ∧
    findCommentById commentedPosts.comments 5 = some (exampleComment 5 3 21 2) ∧
    findCommentById
      (handle exampleEnv 20 commentedPosts (Request.likeComment (IdParam.oid 5))).1.comments 5 =
        some likedComment ∧
    (exampleComment 5 3 21 2).likes ≤ likedComment.likes ∧
    findCommentById
      (handle exampleEnv 20 commentedPosts (Request.likeComment (IdParam.oid 4))).1.comments 5 =
        some (exampleComment 5 3 21 2) := by
  have hp : postIdsUnique commentedPosts := by unfold postIdsUnique; decide
  have hc : commentIdsUnique commentedPosts := by unfold commentIdsUnique; decide
  have h5 : findCommentById commentedPosts.comments 5 = some (exampleComment 5 3 21 2) := by
    decide
  have h5' : findCommentById
      (handle exampleEnv 20 commentedPosts (Request.likeComment (IdParam.oid 5))).1.comments 5 =
        some likedComment := by decide
  exact ⟨hp, hc, h5, h5',
    ((handle_likes_monotone exampleEnv 20 commentedPosts (Request.likeComment (IdParam.oid 5))
      hp hc).2
      5 (exampleComment 5 3 21 2) likedComment h5 h5').1, by decide⟩

end Blog
